import Mathlib

/-!
SoftapControllerQC: a shallow embedding.

The file `SoftapControllerQC.cpp` drives a Qualcomm (Libra) soft access point:
it loads and unloads the two kernel modules, writes `hostapd.conf`, and starts
and stops the `hostapd` service through the property store.

Every operating-system call of the C++ code is a primitive here.  A primitive
takes its answer from a stream of future answers held in the `World` and
appends an `Event` to the `World`'s trace, so each function of the source is a
total function `World → result × World`.  C strings are lists of characters
(the characters before the terminating NUL).
-/

namespace SoftapQC

/-- The characters of a C string, terminator excluded. -/
abbrev CStr := List Char

/-- The future answers of one kind of operating-system call. -/
abbrev Feed (α : Type) := Nat → α

/-- The stream after its first answer has been used. -/
def Feed.tail {α : Type} (f : Feed α) : Feed α := fun n => f (n + 1)

/-! ## Constants of the source -/

def WIFI_MODULE_EXT_PATH : CStr := "/system/lib/modules/librasdioif.ko".toList
def WIFI_MODULE_PATH : CStr := "/system/lib/modules/libra.ko".toList
def IFACE_DIR : CStr := "/data/hostapd".toList
def HOSTAPD_NAME : CStr := "hostapd".toList
def HOSTAPD_CONFIG_TEMPLATE : CStr := "/system/etc/firmware/wlan/hostapd_default.conf".toList
def HOSTAPD_CONFIG_FILE : CStr := "/data/hostapd/hostapd.conf".toList
def HOSTAPD_PROP_NAME : CStr := "init.svc.hostapd".toList
def POLLING_PATH : CStr := "/sys/devices/platform/msm_sdcc.3/polling".toList

def WIFI_DEFAULT_BI : Int := 100
def WIFI_DEFAULT_DTIM : Int := 2
def WIFI_DEFAULT_CHANNEL : Int := 4
def WIFI_DEFAULT_MAX_STA : Int := 255
def WIFI_DEFAULT_PREAMBLE : Int := 0

/-- Linux errno values used by the source. -/
def ENOENT : Int := 2
def EAGAIN : Int := 11

/-- Android user ids of private/android_filesystem_config.h. -/
def AID_SYSTEM : Nat := 1000
def AID_WIFI : Nat := 1010

/-- What the headers and the build decide: the three settle delays of
SoftapController.h (microseconds) and whether the C library offers the
property area (`HAVE_LIBC_SYSTEM_PROPERTIES`). -/
structure Build where
  AP_BSS_START_DELAY : Nat
  AP_BSS_STOP_DELAY : Nat
  AP_SET_CFG_DELAY : Nat
  HAVE_LIBC_SYSTEM_PROPERTIES : Bool

/-! ## Events and the world -/

/-- The flag sets the source passes to `open`. -/
inductive OpenMode where
  | rdonly
  | wronly
  | rdwr
  | creatWronly
  | creatWronlyTrunc
  deriving DecidableEq, Repr

/-- One operating-system level action, with the answer it got. -/
inductive Event where
  | socket (ret : Int)
  | openFile (path : CStr) (mode : OpenMode) (fd : Int)
  | readFile (path : CStr) (count : Nat) (ret : Int)
  | writeFile (path : CStr) (data : List Char) (ret : Int)
  | closeFile (path : CStr)
  | unlink (path : CStr)
  | chown (path : CStr) (uid gid : Nat) (ret : Int)
  | access (path : CStr) (ret : Int)
  | sleep (sec : Nat)
  | usleep (usec : Nat)
  | schedYield
  | propertyGet (name : CStr) (value : CStr)
  | propertySet (key value : CStr)
  | propertyFind (name : CStr) (found : Bool)
  | propertyRead (value : CStr) (serial : Nat)
  | wpaCtrlCleanup
  | loadFile (path : CStr) (ok : Bool)
  | initModule (args : CStr) (ret : Int)
  | deleteModule (name : CStr) (ret : Int)
  | ifcInit
  | ifcUp (name : CStr)
  deriving DecidableEq, Repr

/-- One look at the status property through the property area: whether
`__system_property_find` finds it, and the value and serial a read gives. -/
structure PropObs where
  found : Bool
  value : CStr
  serial : Nat

/-- The process and its surroundings: the trace of actions so far, the answers
the operating system will give, the file-scope variables of the source, and the
two files whose bytes matter. -/
structure World where
  trace : List Event
  socketRet : Feed Int
  /-- answers `(return value, errno afterwards)` -/
  openRet : Feed (Int × Int)
  /-- answers `(bytes the kernel takes at most or failure, errno afterwards)` -/
  writeRet : Feed (Option Nat × Int)
  accessRet : Feed (Int × Int)
  deleteModuleRet : Feed (Int × Int)
  /-- bytes a read of a sysfs attribute delivers, `none` for a failed read -/
  readRet : Feed (Option (List Char))
  /-- a read of the template: `none` fails, `some c` delivers at most `c + 1` bytes -/
  copyReadRet : Feed (Option Nat)
  chownRet : Feed Int
  loadFileRet : Feed Bool
  initModuleRet : Feed Int
  propertyGetRet : Feed CStr
  sysProp : Feed PropObs
  /-- `type` attribute of rfkill0, rfkill1, ...; opening the next one fails -/
  rfkillTypes : List (Option (List Char))
  /-- the stack memory from the address of `buf` in `setSoftap` onwards -/
  stack : List Char
  /-- bytes of the template file -/
  template : List Char
  /-- bytes of `hostapd.conf`, `none` when the file does not exist -/
  conf : Option (List Char)
  /-- offset of the descriptor open on `hostapd.conf` -/
  confOff : Nat
  errno : Int
  rfkill_id : Int
  rfkill_state_path : Option CStr
  mProfileValid : Int
  ctrl_conn : Option Unit
  iface : CStr

/-- Record an action. -/
def emit (e : Event) (w : World) : World := { w with trace := w.trace ++ [e] }

/-- The controller object. -/
structure SoftapController where
  mPid : Int
  mSock : Int
  mIface : CStr
  deriving DecidableEq, Repr

/-! ## Primitives -/

/-- Bytes `data` stored at offset `off` of a file holding `old`. -/
def overwrite (old : List Char) (off : Nat) (data : List Char) : List Char :=
  old.take off ++ data ++ old.drop (off + data.length)

/-- POSIX open: the descriptor comes from the feed.  A successful open of `hostapd.conf`
creates the file when it is absent, empties it under `O_TRUNC`, and starts at
offset 0. -/
def sys_open (path : CStr) (mode : OpenMode) (w : World) : Int × World :=
  let r := w.openRet 0
  let w1 := { emit (Event.openFile path mode r.1) w with
              openRet := w.openRet.tail, errno := r.2 }
  if 0 ≤ r.1 ∧ path = HOSTAPD_CONFIG_FILE then
    match mode with
    | OpenMode.creatWronlyTrunc => (r.1, { w1 with conf := some [], confOff := 0 })
    | OpenMode.creatWronly => (r.1, { w1 with conf := some (w.conf.getD []), confOff := 0 })
    | _ => (r.1, { w1 with confOff := 0 })
  else (r.1, w1)

/-- POSIX write.  The answer `none` is a failed write (return value -1, nothing
written); the answer `some cap` accepts the first `cap` bytes of `data`, all of
them when `cap` is at least their number.  Bytes accepted for `hostapd.conf`
land at the descriptor's offset. -/
def sys_write (path : CStr) (data : List Char) (w : World) : Int × World :=
  let r := w.writeRet 0
  let ret : Int :=
    match r.1 with
    | none => -1
    | some cap => ((data.take cap).length : Nat)
  let w1 := { emit (Event.writeFile path data ret) w with
              writeRet := w.writeRet.tail, errno := r.2 }
  match r.1 with
  | none => (ret, w1)
  | some cap =>
    if path = HOSTAPD_CONFIG_FILE then
      (ret, { w1 with conf := some (overwrite (w.conf.getD []) w.confOff (data.take cap)),
                      confOff := w.confOff + (data.take cap).length })
    else (ret, w1)

def sys_close (path : CStr) (w : World) : World := emit (Event.closeFile path) w

/-- Removing `hostapd.conf` makes it absent. -/
def sys_unlink (path : CStr) (w : World) : World :=
  let w1 := emit (Event.unlink path) w
  if path = HOSTAPD_CONFIG_FILE then { w1 with conf := none } else w1

def sys_access (path : CStr) (w : World) : Int × World :=
  let r := w.accessRet 0
  (r.1, { emit (Event.access path r.1) w with accessRet := w.accessRet.tail, errno := r.2 })

def sys_chown (path : CStr) (uid gid : Nat) (w : World) : Int × World :=
  let r := w.chownRet 0
  (r, { emit (Event.chown path uid gid r) w with chownRet := w.chownRet.tail })

/-- A read of a sysfs attribute into a buffer of `count` bytes: the bytes and the
return value. -/
def sys_read (path : CStr) (count : Nat) (w : World) : (Int × List Char) × World :=
  match w.readRet 0 with
  | none => ((-1, []), { emit (Event.readFile path count (-1)) w with readRet := w.readRet.tail })
  | some d =>
    let got := d.take count
    ((got.length, got),
      { emit (Event.readFile path count got.length) w with readRet := w.readRet.tail })

def sys_sleep (sec : Nat) (w : World) : World := emit (Event.sleep sec) w
def sys_usleep (usec : Nat) (w : World) : World := emit (Event.usleep usec) w
def sched_yield (w : World) : World := emit Event.schedYield w

/-- The call `property_get(name, value, NULL)`: the value and its length. -/
def property_get (name : CStr) (w : World) : (Nat × CStr) × World :=
  let v := w.propertyGetRet 0
  ((v.length, v), { emit (Event.propertyGet name v) w with
                    propertyGetRet := w.propertyGetRet.tail })

def property_set (key value : CStr) (w : World) : World := emit (Event.propertySet key value) w

def delete_module (name : CStr) (w : World) : Int × World :=
  let r := w.deleteModuleRet 0
  (r.1, { emit (Event.deleteModule name r.1) w with
          deleteModuleRet := w.deleteModuleRet.tail, errno := r.2 })

/-- Decimal text of an `int`, as `%d` prints it. -/
def fmtD (i : Int) : List Char :=
  if i < 0 then '-' :: Nat.toDigits 10 i.natAbs else Nat.toDigits 10 i.toNat

/-- The call `snprintf(buf, size, ...)` where `s` is the fully formatted text and
`mem` the memory from `buf` onwards: at most `size - 1` characters of `s` are
stored, then a NUL; the return value is the length of `s`. -/
def snprintf (mem : List Char) (size : Nat) (s : List Char) : List Char × Nat :=
  if size = 0 then (mem, s.length)
  else (s.take (size - 1) ++ Char.ofNat 0 :: mem.drop (min s.length (size - 1) + 1), s.length)

/-! ## rfkill support -/

def rfkillTypePath (id : Nat) : CStr :=
  "/sys/class/rfkill/rfkill".toList ++ Nat.toDigits 10 id ++ "/type".toList

def rfkillStatePath (id : Nat) : CStr :=
  "/sys/class/rfkill/rfkill".toList ++ Nat.toDigits 10 id ++ "/state".toList

/-- The source's `write_int`: print the value and a newline into the attribute. -/
def write_int (path : CStr) (value : Int) (w : World) : Int × World :=
  let o := sys_open path OpenMode.rdwr w
  if 0 ≤ o.1 then
    let buffer := fmtD value ++ ['\n']
    let wr := sys_write path buffer o.2
    let w2 := sys_close path wr.2
    (if wr.1 = -1 then -w2.errno else 0, w2)
  else (-o.2.errno, o.2)

/-- The scan of `init_rfkill` from entry `id` on, over the `type` attributes that
exist: the first one whose 16-byte read starts with "wlan" is latched. -/
def init_rfkill_scan : List (Option (List Char)) → Nat → World → Int × World
  | [], id, w => (-1, emit (Event.openFile (rfkillTypePath id) OpenMode.rdonly (-1)) w)
  | t :: rest, id, w =>
    let w1 := emit (Event.openFile (rfkillTypePath id) OpenMode.rdonly 0) w
    let buf := (t.getD []).take 16
    let sz : Int := if t.isSome then buf.length else -1
    let w2 := sys_close (rfkillTypePath id) (emit (Event.readFile (rfkillTypePath id) 16 sz) w1)
    if 4 ≤ sz ∧ buf.take 4 = "wlan".toList then
      (0, { w2 with rfkill_id := id, rfkill_state_path := some (rfkillStatePath id) })
    else init_rfkill_scan rest (id + 1) w2

def init_rfkill (w : World) : Int × World := init_rfkill_scan w.rfkillTypes 0 w

def check_wifi_power (w : World) : Int × World :=
  let i := if w.rfkill_id = -1 then init_rfkill w else (0, w)
  if i.1 ≠ 0 then (-1, i.2)
  else
    let path := i.2.rfkill_state_path.getD []
    let o := sys_open path OpenMode.rdonly i.2
    if o.1 < 0 then (-1, o.2)
    else
      let r := sys_read path 1 o.2
      if r.1.1 ≠ 1 then (-1, sys_close path r.2)
      else
        let ret : Int :=
          if r.1.2 = ['1'] then 1 else if r.1.2 = ['0'] then 0 else -1
        (ret, sys_close path r.2)

def set_wifi_power (on_ : Int) (w : World) : Int × World :=
  let buffer : Char := if on_ ≠ 0 then '1' else '0'
  let i := if w.rfkill_id = -1 then init_rfkill w else (0, w)
  if i.1 ≠ 0 then (-1, i.2)
  else
    let c := check_wifi_power i.2
    if c.1 = on_ then (0, c.2)
    else
      let path := c.2.rfkill_state_path.getD []
      let o := sys_open path OpenMode.wronly c.2
      if o.1 < 0 then (-1, o.2)
      else
        let wr := sys_write path [buffer] (sys_sleep 3 o.2)
        if wr.1 < 0 then (-1, sys_close path wr.2)
        else (0, sys_close path wr.2)

/-! ## The configuration file -/

/-- One `read(srcfd, buf, 2048)` of the template at offset `off`: `none` for a
failed read, otherwise the bytes delivered (none left means end of file). -/
def read_template (off : Nat) (w : World) : Option (List Char) × World :=
  match w.copyReadRet 0 with
  | none =>
    (none, { emit (Event.readFile HOSTAPD_CONFIG_TEMPLATE 2048 (-1)) w with
             copyReadRet := w.copyReadRet.tail })
  | some c =>
    let got := (w.template.drop off).take (min (c + 1) 2048)
    (some got, { emit (Event.readFile HOSTAPD_CONFIG_TEMPLATE 2048 got.length) w with
                 copyReadRet := w.copyReadRet.tail })

/-- The copy loop of `ensure_config_file_exists`: `true` when end of file was
reached, `false` when a read failed.  The result of `write` is not looked at. -/
def copy_loop : Nat → Nat → World → Option (Bool × World)
  | 0, _, _ => none
  | fuel + 1, off, w =>
    let r := read_template off w
    match r.1 with
    | none => some (false, r.2)
    | some got =>
      if got.length = 0 then some (true, r.2)
      else copy_loop fuel (off + got.length) (sys_write HOSTAPD_CONFIG_FILE got r.2).2

def ensure_config_file_exists (w : World) : Int × World :=
  let a := sys_access HOSTAPD_CONFIG_FILE w
  if a.1 = 0 then (0, a.2)
  else if a.2.errno ≠ ENOENT then (-1, a.2)
  else
    let s := sys_open HOSTAPD_CONFIG_TEMPLATE OpenMode.rdonly a.2
    if s.1 < 0 then (-1, s.2)
    else
      let d := sys_open HOSTAPD_CONFIG_FILE OpenMode.creatWronly s.2
      if d.1 < 0 then (-1, sys_close HOSTAPD_CONFIG_TEMPLATE d.2)
      else
        match copy_loop (w.template.length + 1) 0 d.2 with
        | none => (-1, d.2)
        | some (false, w1) =>
          (-1, sys_unlink HOSTAPD_CONFIG_FILE
                 (sys_close HOSTAPD_CONFIG_FILE (sys_close HOSTAPD_CONFIG_TEMPLATE w1)))
        | some (true, w1) =>
          let w2 := sys_close HOSTAPD_CONFIG_TEMPLATE (sys_close HOSTAPD_CONFIG_FILE w1)
          let c := sys_chown HOSTAPD_CONFIG_FILE AID_SYSTEM AID_WIFI w2
          if c.1 < 0 then (-1, sys_unlink HOSTAPD_CONFIG_FILE c.2)
          else (0, c.2)

/-! ## The hostapd service -/

def running : CStr := "running".toList
def stopped : CStr := "stopped".toList

/-- Move on to the next look at the property area. -/
def next_look (w : World) : World := { w with sysProp := w.sysProp.tail }

/-- The polling loop of `wifi_start_hostapd` with `count` rounds left; `pi` says
whether the property was found already, `serial` is the serial captured before
the start request. -/
def start_poll (b : Build) : Nat → Bool → Nat → World → Int × World
  | 0, _, _, w => (-1, w)
  | count + 1, pi, serial, w =>
    if b.HAVE_LIBC_SYSTEM_PROPERTIES then
      let o := w.sysProp 0
      let w0 := next_look w
      let w1 := if pi then w0 else emit (Event.propertyFind HOSTAPD_PROP_NAME o.found) w0
      let pi1 := pi || o.found
      if pi1 then
        let w2 := emit (Event.propertyRead o.value o.serial) w1
        if o.value = running then (0, w2)
        else if o.serial ≠ serial ∧ o.value = stopped then (-1, w2)
        else start_poll b count pi1 serial (sys_usleep 100000 w2)
      else start_poll b count pi1 serial (sys_usleep 100000 w1)
    else start_poll b count pi serial (sys_usleep 100000 w)

def wifi_start_hostapd (b : Build) (w : World) : Int × World :=
  let g := property_get HOSTAPD_PROP_NAME w
  if g.1.1 ≠ 0 ∧ g.1.2 = running then (0, g.2)
  else
    let w1 := emit Event.wpaCtrlCleanup g.2
    let o := w1.sysProp 0
    let pi := b.HAVE_LIBC_SYSTEM_PROPERTIES && o.found
    let serial := if pi then o.serial else 0
    let w2 :=
      if b.HAVE_LIBC_SYSTEM_PROPERTIES then
        next_look (emit (Event.propertyFind HOSTAPD_PROP_NAME o.found) w1)
      else w1
    let w3 := sched_yield (property_set "ctl.start".toList HOSTAPD_NAME w2)
    start_poll b 300 pi serial w3

/-- The polling loop of `wifi_stop_hostapd` with `count` rounds left. -/
def stop_poll : Nat → World → Int × World
  | 0, w => (-1, w)
  | count + 1, w =>
    let g := property_get HOSTAPD_PROP_NAME w
    if g.1.1 ≠ 0 ∧ g.1.2 = stopped then (0, g.2)
    else stop_poll count (sys_usleep 100000 g.2)

def wifi_stop_hostapd (w : World) : Int × World :=
  let g := property_get HOSTAPD_PROP_NAME w
  if g.1.1 ≠ 0 ∧ g.1.2 = stopped then (0, g.2)
  else stop_poll 50 (sched_yield (property_set "ctl.stop".toList HOSTAPD_NAME g.2))

/-- The wait of `wifi_connect_to_hostapd` for the control socket node, with `cnt`
sleeps left: it ends when `access` succeeds or no sleep is left. -/
def ready_poll (ifname : CStr) : Nat → World → World
  | 0, w => (sys_access ifname w).2
  | cnt + 1, w =>
    let a := sys_access ifname w
    if a.1 ≠ 0 then ready_poll ifname cnt (sys_usleep 50000 a.2) else a.2

def wifi_connect_to_hostapd (w : World) : Int × World :=
  let g := property_get HOSTAPD_PROP_NAME w
  if g.1.1 = 0 ∨ g.1.2 ≠ running then (-1, g.2)
  else
    let w1 := { g.2 with iface := "softap.0".toList }
    let ifname := IFACE_DIR ++ ['/'] ++ w1.iface
    let w2 := ready_poll ifname 160 (sched_yield w1)
    (0, (sys_access ifname w2).2)

def wifi_close_hostapd_connection (w : World) : World := w

def wifi_load_profile (_started : Bool) (w : World) : Int × World := (0, w)

/-! ## Kernel modules -/

def insmod (filename args : CStr) (w : World) : Int × World :=
  let ok := w.loadFileRet 0
  let w1 := { emit (Event.loadFile filename ok) w with loadFileRet := w.loadFileRet.tail }
  if !ok then (-1, w1)
  else
    let r := w1.initModuleRet 0
    (r, { emit (Event.initModule args r) w1 with initModuleRet := w1.initModuleRet.tail })

/-- The retry loop of `rmmod` with `maxtry` attempts left and `ret` the result so
far. -/
def rmmod_loop (modname : CStr) : Nat → Int → World → Int × World
  | 0, ret, w => (ret, w)
  | maxtry + 1, _, w =>
    let d := delete_module modname w
    if d.1 < 0 ∧ d.2.errno = EAGAIN then rmmod_loop modname maxtry d.1 (sys_usleep 500000 d.2)
    else (d.1, d.2)

def rmmod (modname : CStr) (w : World) : Int × World := rmmod_loop modname 10 (-1) w

/-! ## The controller -/

/-- The constructor. -/
def SoftapController.new (w : World) : SoftapController × World :=
  let s := w.socketRet 0
  ({ mPid := 0, mSock := s, mIface := [] },
   { emit (Event.socket s) w with
     socketRet := w.socketRet.tail, mProfileValid := 0, ctrl_conn := none })

def startDriver (c : SoftapController) (_iface : Option CStr) (w : World) : Int × World :=
  if c.mSock < 0 then (-1, w)
  else
    let p := write_int POLLING_PATH 1 w
    let r : Int × World :=
      if p.1 < 0 then (-1, p.2)
      else
        let m1 := insmod WIFI_MODULE_EXT_PATH [] p.2
        if m1.1 ≠ 0 then m1
        else
          let m2 := insmod WIFI_MODULE_PATH "con_mode=1".toList m1.2
          if m2.1 ≠ 0 then m2
          else ensure_config_file_exists (sys_usleep 1000000 m2.2)
    (r.1, (write_int POLLING_PATH 0 r.2).2)

def stopDriver (c : SoftapController) (_iface : Option CStr) (w : World) : Int × World :=
  if c.mSock < 0 then (-1, w)
  else
    let r := rmmod "libra".toList w
    if r.1 ≠ 0 then r
    else rmmod "librasdioif".toList r.2

def startSoftap (b : Build) (c : SoftapController) (w : World) :
    Int × SoftapController × World :=
  let pid : Int := 1
  if c.mPid ≠ 0 then (0, c, w)
  else if c.mSock < 0 then (-1, c, w)
  else if pid = 0 then (0, c, w)
  else
    let w1 := sys_sleep 1 (emit (Event.ifcUp "softap.0".toList) (emit Event.ifcInit w))
    let s := wifi_start_hostapd b w1
    if s.1 < 0 then (-1, c, (stopDriver c (some "softap.0".toList) s.2).2)
    else
      let k := wifi_connect_to_hostapd (sys_usleep 100000 (sched_yield s.2))
      if k.1 < 0 then (-1, c, k.2)
      else
        let l := wifi_load_profile true k.2
        if l.1 < 0 then (-1, c, l.2)
        else if l.1 ≠ 0 then (l.1, c, l.2)
        else (l.1, { c with mPid := pid }, sys_usleep b.AP_BSS_START_DELAY l.2)

def stopSoftap (b : Build) (c : SoftapController) (w : World) :
    Int × SoftapController × World :=
  if c.mPid = 0 then (0, c, w)
  else if c.mSock < 0 then (-1, c, w)
  else
    let s := wifi_stop_hostapd (wifi_close_hostapd_connection w)
    (s.1, { c with mPid := 0 }, sys_usleep b.AP_BSS_STOP_DELAY s.2)

def isSoftapStarted (w : World) : Bool × World :=
  let g := property_get HOSTAPD_PROP_NAME w
  (decide (g.1.1 ≠ 0 ∧ g.1.2 = running), g.2)

/-- The pair `len = snprintf(buf, sizeof(buf), ...); write(fd, buf, len);` of
`setSoftap`, where `s` is the formatted text: the state is the world and the
memory from `buf` onwards. -/
def put_line (s : List Char) (st : World × List Char) : World × List Char :=
  let f := snprintf st.2 256 s
  ((sys_write HOSTAPD_CONFIG_FILE (f.1.take f.2) st.1).2, f.1)

def HT_CAPAB_LINE : List Char :=
  ("ht_capab=[LDPC] [HT40+] [GF] [SHORT-GI-20] [SHORT-GI-40] [TX-STBC] [RX-STBC1] " ++
   "[RX-STBC12] [RX-STBC123] [DELAYED-BA] [MAX-AMSDU-7935] [DSSS_CCK-40] [PSMP] " ++
   "[LSIG-TXOP-PROT]\n").toList

/-- Lines 676 to 699 of the source: the fixed head, the SSID and the fixed
station defaults. -/
def ssid_lines (argv : List CStr) (st : World × List Char) : World × List Char :=
  let argc := argv.length
  let s1 := put_line "driver=QcHostapd\n".toList st
  let s2 := put_line "interface=softap.0\n".toList s1
  let s3 := put_line ("ctrl_interface=".toList ++ IFACE_DIR ++ ['\n']) s2
  let s4 := put_line HT_CAPAB_LINE s3
  let s5 :=
    if argc > 4 then put_line ("ssid=".toList ++ argv.getD 4 [] ++ ['\n']) s4
    else put_line "ssid=AndroidAP\n".toList s4
  let s6 := put_line "auth_algs=3\n".toList s5
  let s7 := put_line ("max_num_sta=".toList ++ fmtD WIFI_DEFAULT_MAX_STA ++ ['\n']) s6
  let s8 := put_line ("beacon_int=".toList ++ fmtD WIFI_DEFAULT_BI ++ ['\n']) s7
  put_line ("dtim_period=".toList ++ fmtD WIFI_DEFAULT_DTIM ++ ['\n']) s8

/-- Lines 700 to 716 of the source: the WPA2-PSK block.  The call
`strncmp(argv[5], "wpa2-psk", 8) == 0` holds when the first eight characters of
`argv[5]` are "wpa2-psk". -/
def wpa_lines (argv : List CStr) (st : World × List Char) : World × List Char :=
  let argc := argv.length
  if argc > 5 then
    if (argv.getD 5 []).take 8 = "wpa2-psk".toList then
      let a := put_line "wpa=2\n".toList st
      let a1 := put_line "wpa_key_mgmt=WPA-PSK\n".toList a
      let a2 := put_line "wpa_pairwise=CCMP\n".toList a1
      if argc > 6 then put_line ("wpa_passphrase=".toList ++ argv.getD 6 [] ++ ['\n']) a2
      else put_line "wpa_passphrase=12345678\n".toList a2
    else st
  else st

/-- Lines 718 to 731 of the source: channel and preamble. -/
def channel_lines (argv : List CStr) (st : World × List Char) : World × List Char :=
  let argc := argv.length
  let s1 :=
    if argc > 7 then put_line ("channel=".toList ++ argv.getD 7 [] ++ ['\n']) st
    else put_line ("channel=".toList ++ fmtD WIFI_DEFAULT_CHANNEL ++ ['\n']) st
  if argc > 8 then put_line ("preamble=".toList ++ argv.getD 8 [] ++ ['\n']) s1
  else put_line ("preamble=".toList ++ fmtD WIFI_DEFAULT_PREAMBLE ++ ['\n']) s1

/-- The lines `setSoftap` sends to the opened file, in order. -/
def softap_lines (argv : List CStr) (st : World × List Char) : World × List Char :=
  channel_lines argv (wpa_lines argv (ssid_lines argv st))

def setSoftap (b : Build) (c : SoftapController) (argv : List CStr) (w : World) :
    Int × World :=
  if c.mSock < 0 then (-1, w)
  else if argv.length < 4 then (-1, w)
  else
    let o := sys_open HOSTAPD_CONFIG_FILE OpenMode.creatWronlyTrunc w
    if o.1 < 0 then (-1, o.2)
    else
      let st := softap_lines argv (o.2, o.2.stack)
      let w1 := sys_close HOSTAPD_CONFIG_FILE { st.1 with mProfileValid := 1 }
      let i := isSoftapStarted w1
      let l := wifi_load_profile i.1 i.2
      if l.1 < 0 then (-1, l.2)
      else if l.1 ≠ 0 then (l.1, l.2)
      else (l.1, sys_usleep b.AP_SET_CFG_DELAY l.2)

/-! ## Sequences of controller operations -/

inductive Op where
  | startDriver (iface : Option CStr)
  | stopDriver (iface : Option CStr)
  | startSoftap
  | stopSoftap
  | setSoftap (argv : List CStr)
  deriving DecidableEq, Repr

/-- One operation on the controller: its return value and the state after it. -/
def step (b : Build) (op : Op) (s : SoftapController × World) :
    Int × SoftapController × World :=
  match op with
  | Op.startDriver i => ((startDriver s.1 i s.2).1, s.1, (startDriver s.1 i s.2).2)
  | Op.stopDriver i => ((stopDriver s.1 i s.2).1, s.1, (stopDriver s.1 i s.2).2)
  | Op.startSoftap => startSoftap b s.1 s.2
  | Op.stopSoftap => stopSoftap b s.1 s.2
  | Op.setSoftap argv => ((setSoftap b s.1 argv s.2).1, s.1, (setSoftap b s.1 argv s.2).2)

/-- Run the operations in order: each operation with its return value, and the
final state. -/
def run (b : Build) : List Op → SoftapController × World →
    List (Op × Int) × SoftapController × World
  | [], s => ([], s)
  | op :: rest, s =>
    let r := step b op s
    let t := run b rest r.2
    ((op, r.1) :: t.1, t.2)

/-! ## Vocabulary of the statements -/

/-- The bytes handed to `write` for `path`, in order of the calls. -/
def written (path : CStr) : List Event → List Char
  | [] => []
  | Event.writeFile p d _ :: t => if p = path then d ++ written path t else written path t
  | _ :: t => written path t

/-- The actions performed between world `w` and the later world `w1`. -/
def eventsSince (w w1 : World) : List Event := w1.trace.drop w.trace.length

/-- The bytes `write(fd, buf, len)` sends after `len = snprintf(buf, 256, ...)`
formatted the text `s` into the memory `mem`. -/
def line_bytes (mem s : List Char) : List Char :=
  (snprintf mem 256 s).1.take (snprintf mem 256 s).2

/-- The lines of a text: the pieces between newlines. -/
def linesOf : List Char → List (List Char)
  | [] => [[]]
  | c :: t =>
    if c = '\n' then [] :: linesOf t
    else
      match linesOf t with
      | [] => [[c]]
      | l :: ls => (c :: l) :: ls

/-- The text `out` has the line `l`: `l` starts the text or follows a newline, and
a newline follows it. -/
def HasLine (out l : List Char) : Prop :=
  ∃ pre post, out = pre ++ (l ++ '\n' :: post) ∧ (pre = [] ∨ ∃ q, pre = q ++ ['\n'])

/-- The file `setSoftap` writes for four arguments. -/
def MINIMAL_CONFIG : List Char :=
  "driver=QcHostapd\n".toList ++ "interface=softap.0\n".toList ++
  "ctrl_interface=/data/hostapd\n".toList ++ HT_CAPAB_LINE ++ "ssid=AndroidAP\n".toList ++
  "auth_algs=3\n".toList ++ "max_num_sta=255\n".toList ++ "beacon_int=100\n".toList ++
  "dtim_period=2\n".toList ++ "channel=4\n".toList ++ "preamble=0\n".toList

/-- A world in which every call succeeds, the service reports "running" and the
kill switch is discovered and on. -/
def calmWorld : World where
  trace := []
  socketRet := fun _ => 3
  openRet := fun _ => (4, 0)
  writeRet := fun _ => (some 4096, 0)
  accessRet := fun _ => (0, 0)
  deleteModuleRet := fun _ => (0, 0)
  readRet := fun _ => some ['1']
  copyReadRet := fun _ => some 2047
  chownRet := fun _ => 0
  loadFileRet := fun _ => true
  initModuleRet := fun _ => 0
  propertyGetRet := fun _ => running
  sysProp := fun _ => { found := true, value := running, serial := 1 }
  rfkillTypes := [some "wlan\n".toList]
  stack := List.replicate 300 'x'
  template := "ssid=AndroidAP\n".toList
  conf := none
  confOff := 0
  errno := 0
  rfkill_id := 0
  rfkill_state_path := some (rfkillStatePath 0)
  mProfileValid := 0
  ctrl_conn := none
  iface := []

def someBuild : Build where
  AP_BSS_START_DELAY := 200000
  AP_BSS_STOP_DELAY := 500000
  AP_SET_CFG_DELAY := 500000
  HAVE_LIBC_SYSTEM_PROPERTIES := true

/-- A controller whose socket is open. -/
def openCtrl : SoftapController := { mPid := 0, mSock := 3, mIface := [] }

def argv4 : List CStr :=
  ["softap".toList, "set".toList, "wlan0".toList, "softap.0".toList]

/-- A passphrase of 240 characters. -/
def longKey : CStr := List.replicate 240 'a'

def argv7 (key : CStr) : List CStr :=
  argv4 ++ ["AndroidAP".toList, "wpa2-psk".toList, key]

/-- The serial `wifi_start_hostapd` captures before the start request: that of
the property when it exists at that moment, else the initial 0. -/
def entrySerial (w : World) : Nat :=
  if (w.sysProp 0).found then (w.sysProp 0).serial else 0

/-- What poll `k` (counted from 0) of `wifi_start_hostapd` can observe: the look at
the property area that follows the one taken before the start request. -/
def pollObs (w : World) (k : Nat) : PropObs := w.sysProp (k + 1)

/-- Poll `k` reads the property: it was found before the start request or by one of
the polls up to `k`. -/
def pollSees (w : World) (k : Nat) : Prop :=
  (w.sysProp 0).found = true ∨ ∃ j, j ≤ k ∧ (pollObs w j).found = true

/-- Number of 100 ms sleeps among the actions. -/
def sleeps100ms (evs : List Event) : Nat := evs.count (Event.usleep 100000)

/-- A world whose service is "stopped" at entry and is seen "stopped" with a new
serial by poll 2. -/
def crashWorld : World :=
  { calmWorld with
    propertyGetRet := fun _ => stopped
    sysProp := fun n =>
      if n < 3 then { found := true, value := "starting".toList, serial := 7 }
      else { found := true, value := stopped, serial := 8 } }

/-- An outcome of `delete_module` that makes `rmmod` try again: a failure with
errno EAGAIN. -/
def busy (r : Int × Int) : Prop := r.1 < 0 ∧ r.2 = EAGAIN

instance (r : Int × Int) : Decidable (busy r) := by
  unfold busy
  infer_instance

/-- The first `n` attempts of `rmmod` on outcomes `f`, each followed by the sleep of
500 ms. -/
def retryEvents (modname : CStr) (f : Feed (Int × Int)) : Nat → List Event
  | 0 => []
  | n + 1 =>
    Event.deleteModule modname (f 0).1 :: Event.usleep 500000 :: retryEvents modname f.tail n

/-- Number of calls of `delete_module` for `modname` among the actions. -/
def deleteCalls (modname : CStr) (evs : List Event) : Nat :=
  evs.countP fun e =>
    match e with
    | Event.deleteModule n _ => decide (n = modname)
    | _ => false

/-- A world whose module stays busy for three attempts and then unloads. -/
def busyWorld : World :=
  { calmWorld with deleteModuleRet := fun n => if n < 3 then (-1, EAGAIN) else (0, 0) }

/-- A world whose module is busy for ever. -/
def stuckWorld : World :=
  { calmWorld with deleteModuleRet := fun _ => (-1, EAGAIN) }

/-- The observation of the status property with the value "running" that
`property_get` records. -/
def runningSeen : Event := Event.propertyGet HOSTAPD_PROP_NAME running

/-- The state after the operations `ops` on a controller constructed in world `w0`. -/
def stateAfter (b : Build) (w0 : World) (ops : List Op) : SoftapController × World :=
  (run b ops (SoftapController.new w0)).2

/-- The operations `ops` with their return values, on a controller constructed in
world `w0`. -/
def historyOf (b : Build) (w0 : World) (ops : List Op) : List (Op × Int) :=
  (run b ops (SoftapController.new w0)).1

/-- What holds of every state reached from a controller constructed in a world
whose trace was `t0`: the trace extends `t0`; and a nonzero `mPid` comes with an
open socket and an observation of "running" made after `t0`. -/
def Sound (t0 : List Event) (s : SoftapController × World) : Prop :=
  t0 <+: s.2.trace ∧
  (s.1.mPid ≠ 0 → 0 ≤ s.1.mSock ∧ ∃ pre, (t0 ++ pre ++ [runningSeen]) <+: s.2.trace)

/-- Number of `write` calls among the actions. -/
def writeCount (evs : List Event) : Nat :=
  evs.countP fun e =>
    match e with
    | Event.writeFile _ _ _ => true
    | _ => false

/-- A world in which `hostapd.conf` is absent and the disk is full: `access` fails
with ENOENT and every `write` fails (errno 28, ENOSPC). -/
def fullDiskWorld : World :=
  { calmWorld with accessRet := fun _ => (-1, ENOENT), writeRet := fun _ => (none, 28) }

/-- A world whose kill switch reads off. -/
def radioOffWorld : World :=
  { calmWorld with readRet := fun _ => some ['0'] }

/-- A controller whose socket could not be opened. -/
def closedCtrl : SoftapController := { mPid := 0, mSock := -1, mIface := [] }

/-- A world in which every `open` fails (errno 13, EACCES). -/
def noOpenWorld : World :=
  { calmWorld with openRet := fun _ => (-1, 13) }

/-! ## The parameter buffer -/

/-- The conversion `(unsigned)` of a sum computed in `size_t`: its value modulo
2^32. -/
def toUnsigned (x : Int) : Nat := (x % 2 ^ 32).toNat

/-- The value an `int` holds after an addition: the sum wrapped into the signed 32-bit range. -/
def toInt32 (x : Int) : Int := (x + 2 ^ 31) % 2 ^ 32 - 2 ^ 31

/-- The call `sprintf(&buf[pos], ...)` where `s` is the formatted text and `mem` the
memory from `buf[0]` onwards: the characters of `s` and a NUL are stored from
offset `pos`, with no bound; the return value is the length of `s`. -/
def sprintf_at (mem : List Char) (pos : Nat) (s : List Char) : List Char × Nat :=
  (overwrite mem pos (s ++ [Char.ofNat 0]), s.length)

/-- The method `addParam`.  `N` is `sizeof(mBuf)` (the header that fixes it is not part
of the source file) and `mBuf` is the memory from the first byte of the member
`mBuf` onwards: its first `N` bytes are the array, the following bytes are
whatever the object holds next.  The result is the return value and that
memory afterwards. -/
def addParam (N : Nat) (mBuf : List Char) (pos : Int) (cmd arg : CStr) : Int × List Char :=
  if pos < 0 then (pos, mBuf)
  else if N ≤ toUnsigned (pos + cmd.length + arg.length + 1) then (-1, mBuf)
  else
    let p := sprintf_at mBuf pos.toNat (cmd ++ ['='] ++ arg ++ [','])
    (toInt32 (pos + p.2), p.1)

/-- A buffer of 4096 bytes followed by four bytes of the next member. -/
def bufferAndNext : List Char := List.replicate 4096 'x' ++ "next".toList

/-- An argument of 4090 characters: with the command "ssid" at offset 0 the text
"ssid=...," has 4096 characters. -/
def longArg : CStr := List.replicate 4090 'a'

/-! ## Lemmas on the primitives -/

@[simp] theorem emit_trace (e : Event) (w : World) : (emit e w).trace = w.trace ++ [e] := rfl

@[simp] theorem sys_write_trace (p : CStr) (d : List Char) (w : World) :
    (sys_write p d w).2.trace = w.trace ++ [Event.writeFile p d (sys_write p d w).1] := by
  unfold sys_write
  simp only []
  split
  · rfl
  · split <;> rfl

@[simp] theorem sys_write_stack (p : CStr) (d : List Char) (w : World) :
    (sys_write p d w).2.stack = w.stack := by
  unfold sys_write
  simp only []
  split
  · rfl
  · split <;> rfl

@[simp] theorem sys_open_trace (p : CStr) (m : OpenMode) (w : World) :
    (sys_open p m w).2.trace = w.trace ++ [Event.openFile p m (w.openRet 0).1] := by
  unfold sys_open
  simp only []
  split
  · split <;> rfl
  · rfl

@[simp] theorem sys_open_fst (p : CStr) (m : OpenMode) (w : World) :
    (sys_open p m w).1 = (w.openRet 0).1 := by
  unfold sys_open
  simp only []
  split
  · split <;> rfl
  · rfl

@[simp] theorem sys_close_trace (p : CStr) (w : World) :
    (sys_close p w).trace = w.trace ++ [Event.closeFile p] := rfl

@[simp] theorem sys_usleep_trace (n : Nat) (w : World) :
    (sys_usleep n w).trace = w.trace ++ [Event.usleep n] := rfl

@[simp] theorem sys_sleep_trace (n : Nat) (w : World) :
    (sys_sleep n w).trace = w.trace ++ [Event.sleep n] := rfl

@[simp] theorem sched_yield_trace (w : World) :
    (sched_yield w).trace = w.trace ++ [Event.schedYield] := rfl

@[simp] theorem property_get_trace (n : CStr) (w : World) :
    (property_get n w).2.trace = w.trace ++ [Event.propertyGet n (w.propertyGetRet 0)] := rfl

theorem eventsSince_append (w w1 : World) (evs : List Event) (h : w1.trace = w.trace ++ evs) :
    eventsSince w w1 = evs := by
  simp [eventsSince, h]

/-! ## The configuration text -/

theorem line_bytes_short (mem s : List Char) (h : s.length ≤ 255) : line_bytes mem s = s := by
  unfold line_bytes snprintf
  simp [List.take_of_length_le h, List.take_append_eq_append_take]

theorem written_append (p : CStr) (a b : List Event) :
    written p (a ++ b) = written p a ++ written p b := by
  induction a with
  | nil => rfl
  | cons e t ih =>
    cases e <;> simp [written, ih]
    split <;> simp

@[simp] theorem put_line_trace (s : List Char) (st : World × List Char) :
    (put_line s st).1.trace
      = st.1.trace ++
        [Event.writeFile HOSTAPD_CONFIG_FILE (line_bytes st.2 s)
          (sys_write HOSTAPD_CONFIG_FILE (line_bytes st.2 s) st.1).1] := by
  simp [put_line, line_bytes]

theorem fmtD_max_sta : fmtD WIFI_DEFAULT_MAX_STA = "255".toList := by rfl
theorem fmtD_bi : fmtD WIFI_DEFAULT_BI = "100".toList := by rfl
theorem fmtD_dtim : fmtD WIFI_DEFAULT_DTIM = "2".toList := by rfl
theorem fmtD_channel : fmtD WIFI_DEFAULT_CHANNEL = "4".toList := by rfl
theorem fmtD_preamble : fmtD WIFI_DEFAULT_PREAMBLE = "0".toList := by rfl

theorem ht_capab_short : HT_CAPAB_LINE.length ≤ 255 := by
  have h : HT_CAPAB_LINE.length = 171 := by rfl
  omega

theorem written_put_line (s : List Char) (st : World × List Char) :
    written HOSTAPD_CONFIG_FILE (put_line s st).1.trace
      = written HOSTAPD_CONFIG_FILE st.1.trace ++ line_bytes st.2 s := by
  simp [written_append, written]

theorem put_line_grows (l : List Event) (s : List Char) (st : World × List Char)
    (h : l <+: st.1.trace) : l <+: (put_line s st).1.trace := by
  rw [put_line_trace]
  exact h.trans (List.prefix_append _ _)

theorem ctrl_line : "ctrl_interface=".toList ++ IFACE_DIR ++ ['\n']
    = "ctrl_interface=/data/hostapd\n".toList := by rfl
theorem max_sta_line : "max_num_sta=".toList ++ fmtD WIFI_DEFAULT_MAX_STA ++ ['\n']
    = "max_num_sta=255\n".toList := by rfl
theorem bi_line : "beacon_int=".toList ++ fmtD WIFI_DEFAULT_BI ++ ['\n']
    = "beacon_int=100\n".toList := by rfl
theorem dtim_line : "dtim_period=".toList ++ fmtD WIFI_DEFAULT_DTIM ++ ['\n']
    = "dtim_period=2\n".toList := by rfl
theorem channel_line : "channel=".toList ++ fmtD WIFI_DEFAULT_CHANNEL ++ ['\n']
    = "channel=4\n".toList := by rfl
theorem preamble_line : "preamble=".toList ++ fmtD WIFI_DEFAULT_PREAMBLE ++ ['\n']
    = "preamble=0\n".toList := by rfl

/-- A line of at most 255 characters reaches the file as it is. -/
theorem written_put_line_short (s : List Char) (st : World × List Char) (h : s.length ≤ 255) :
    written HOSTAPD_CONFIG_FILE (put_line s st).1.trace
      = written HOSTAPD_CONFIG_FILE st.1.trace ++ s := by
  rw [written_put_line, line_bytes_short _ _ h]

/-- The first section of `setSoftap` appends text that ends with the DTIM line. -/
theorem ssid_lines_written (argv : List CStr) (st : World × List Char) :
    ∃ d, written HOSTAPD_CONFIG_FILE (ssid_lines argv st).1.trace
        = written HOSTAPD_CONFIG_FILE st.1.trace ++ d ∧ "dtim_period=2\n".toList <:+ d := by
  unfold ssid_lines
  simp only [max_sta_line, bi_line, dtim_line, ctrl_line]
  rw [written_put_line_short _ _ (by decide), written_put_line, written_put_line,
    written_put_line]
  split
  · simp only [written_put_line, List.append_assoc]
    refine ⟨_, rfl, ?_⟩
    simp only [← List.append_assoc]
    exact List.suffix_append _ _
  · simp only [written_put_line, List.append_assoc]
    refine ⟨_, rfl, ?_⟩
    simp only [← List.append_assoc]
    exact List.suffix_append _ _

theorem ssid_lines_grows (l : List Event) (argv : List CStr) (st : World × List Char)
    (h : l <+: st.1.trace) : l <+: (ssid_lines argv st).1.trace := by
  unfold ssid_lines
  simp only []
  split <;> repeat (first | exact h | apply put_line_grows)

theorem wpa_lines_grows (l : List Event) (argv : List CStr) (st : World × List Char)
    (h : l <+: st.1.trace) : l <+: (wpa_lines argv st).1.trace := by
  unfold wpa_lines
  simp only []
  repeat' split
  all_goals repeat (first | exact h | apply put_line_grows)

theorem channel_lines_grows (l : List Event) (argv : List CStr) (st : World × List Char)
    (h : l <+: st.1.trace) : l <+: (channel_lines argv st).1.trace := by
  unfold channel_lines
  simp only []
  repeat' split
  all_goals repeat (first | exact h | apply put_line_grows)

theorem channel_lines_written (argv : List CStr) (st : World × List Char) :
    ∃ d, written HOSTAPD_CONFIG_FILE (channel_lines argv st).1.trace
        = written HOSTAPD_CONFIG_FILE st.1.trace ++ d := by
  unfold channel_lines
  simp only []
  repeat' split
  all_goals simp only [written_put_line, List.append_assoc]
  all_goals exact ⟨_, rfl⟩

/-- The WPA2-PSK block: the three fixed lines for every passphrase, then the bytes of
the passphrase line, which are the line itself when the passphrase has at most
239 characters. -/
theorem wpa_lines_written (argv : List CStr) (st : World × List Char)
    (hargc : 7 ≤ argv.length) (h5 : argv.getD 5 [] = "wpa2-psk".toList) :
    ∃ x, written HOSTAPD_CONFIG_FILE (wpa_lines argv st).1.trace
        = written HOSTAPD_CONFIG_FILE st.1.trace ++
          ("wpa=2\n".toList ++ ("wpa_key_mgmt=WPA-PSK\n".toList ++
            ("wpa_pairwise=CCMP\n".toList ++ x))) ∧
      ((argv.getD 6 []).length ≤ 239 →
        x = "wpa_passphrase=".toList ++ argv.getD 6 [] ++ ['\n']) := by
  unfold wpa_lines
  have h6 : argv.length > 6 := by omega
  have h5' : argv.length > 5 := by omega
  have hk : (argv.getD 5 []).take 8 = "wpa2-psk".toList := by rw [h5]; rfl
  have hlen : ("wpa_passphrase=".toList ++ argv.getD 6 [] ++ ['\n']).length
      = 15 + (argv.getD 6 []).length + 1 := by
    simp only [List.length_append]
    rfl
  simp only [h6, h5', hk, if_true]
  rw [written_put_line, written_put_line_short _ _ (by decide),
    written_put_line_short _ _ (by decide), written_put_line_short _ _ (by decide)]
  generalize (put_line "wpa_pairwise=CCMP\n".toList
    (put_line "wpa_key_mgmt=WPA-PSK\n".toList (put_line "wpa=2\n".toList st))).2 = mem
  exact ⟨line_bytes mem ("wpa_passphrase=".toList ++ argv.getD 6 [] ++ ['\n']),
    by simp only [List.append_assoc], fun hp => line_bytes_short _ _ (by omega)⟩

theorem softap_lines_grows (l : List Event) (argv : List CStr) (st : World × List Char)
    (h : l <+: st.1.trace) : l <+: (softap_lines argv st).1.trace :=
  channel_lines_grows l argv _ (wpa_lines_grows l argv _ (ssid_lines_grows l argv st h))

/-- With four arguments the three sections append exactly the minimal file. -/
theorem softap_lines_minimal (argv : List CStr) (st : World × List Char)
    (hargc : argv.length = 4) :
    written HOSTAPD_CONFIG_FILE (softap_lines argv st).1.trace
      = written HOSTAPD_CONFIG_FILE st.1.trace ++ MINIMAL_CONFIG := by
  have h4 : ¬ argv.length > 4 := by omega
  have h5 : ¬ argv.length > 5 := by omega
  have h7 : ¬ argv.length > 7 := by omega
  have h8 : ¬ argv.length > 8 := by omega
  unfold softap_lines channel_lines wpa_lines ssid_lines
  simp only [h4, h5, h7, h8, if_false, max_sta_line, bi_line, dtim_line, ctrl_line,
    channel_line, preamble_line]
  rw [written_put_line_short _ _ (by decide), written_put_line_short _ _ (by decide),
    written_put_line_short _ _ (by decide), written_put_line_short _ _ (by decide),
    written_put_line_short _ _ (by decide), written_put_line_short _ _ (by decide),
    written_put_line_short _ _ (by decide), written_put_line_short _ _ ht_capab_short,
    written_put_line_short _ _ (by decide), written_put_line_short _ _ (by decide),
    written_put_line_short _ _ (by decide)]
  simp only [MINIMAL_CONFIG, List.append_assoc]

/-- Actions of `setSoftap` once the file is open: the lines, then the close, the status
query and the settle delay. -/
theorem setSoftap_trace (b : Build) (c : SoftapController) (argv : List CStr) (w : World)
    (hargc : 4 ≤ argv.length) (hsock : 0 ≤ c.mSock) (hopen : 0 ≤ (w.openRet 0).1) :
    ∃ st : World × List Char,
      st = softap_lines argv
        ((sys_open HOSTAPD_CONFIG_FILE OpenMode.creatWronlyTrunc w).2,
         (sys_open HOSTAPD_CONFIG_FILE OpenMode.creatWronlyTrunc w).2.stack) ∧
      (setSoftap b c argv w).2.trace
        = st.1.trace ++ [Event.closeFile HOSTAPD_CONFIG_FILE,
            Event.propertyGet HOSTAPD_PROP_NAME (st.1.propertyGetRet 0),
            Event.usleep b.AP_SET_CFG_DELAY] := by
  refine ⟨_, rfl, ?_⟩
  unfold setSoftap
  simp [not_lt.mpr hsock, not_lt.mpr hopen, not_lt.mpr hargc, isSoftapStarted,
    wifi_load_profile, sys_close, emit]

/-- The bytes `setSoftap` writes are those of its lines. -/
theorem setSoftap_written (b : Build) (c : SoftapController) (argv : List CStr) (w : World)
    (hargc : 4 ≤ argv.length) (hsock : 0 ≤ c.mSock) (hopen : 0 ≤ (w.openRet 0).1) :
    w.trace <+: (setSoftap b c argv w).2.trace ∧
    written HOSTAPD_CONFIG_FILE (setSoftap b c argv w).2.trace
      = written HOSTAPD_CONFIG_FILE
          (softap_lines argv
            ((sys_open HOSTAPD_CONFIG_FILE OpenMode.creatWronlyTrunc w).2,
             (sys_open HOSTAPD_CONFIG_FILE OpenMode.creatWronlyTrunc w).2.stack)).1.trace := by
  obtain ⟨st, hst, htr⟩ := setSoftap_trace b c argv w hargc hsock hopen
  subst hst
  constructor
  · rw [htr]
    refine List.IsPrefix.trans ?_ (List.prefix_append _ _)
    apply softap_lines_grows
    simp
  · rw [htr, written_append]
    simp [written]

theorem written_eventsSince (p : CStr) (w w1 : World) (d : List Char)
    (hpre : w.trace <+: w1.trace) (h : written p w1.trace = written p w.trace ++ d) :
    written p (eventsSince w w1) = d := by
  obtain ⟨evs, hevs⟩ := hpre
  rw [eventsSince_append w w1 evs hevs.symm]
  rw [← hevs, written_append] at h
  exact List.append_cancel_left h

theorem written_sys_open (p q : CStr) (m : OpenMode) (w : World) :
    written p (sys_open q m w).2.trace = written p w.trace := by
  simp [written_append, written]

set_option maxRecDepth 100000 in
theorem minimal_no_wpa : ∀ l ∈ linesOf MINIMAL_CONFIG, ¬ "wpa".toList <+: l := by
  decide

/-- C2 (as amended): with four arguments, an open control socket and the configuration file
opened, the bytes `setSoftap` writes to the file are exactly the eleven fixed
lines (driver, interface, control directory, HT capabilities, SSID AndroidAP,
auth_algs 3, 255 stations, beacon interval 100, DTIM 2, channel 4, preamble 0),
and no line of them starts with "wpa". -/
theorem setSoftap_minimal (b : Build) (c : SoftapController) (argv : List CStr) (w : World)
    (hargc : argv.length = 4) (hsock : 0 ≤ c.mSock) (hopen : 0 ≤ (w.openRet 0).1) :
    written HOSTAPD_CONFIG_FILE (eventsSince w (setSoftap b c argv w).2) = MINIMAL_CONFIG
    ∧ ∀ l ∈ linesOf (written HOSTAPD_CONFIG_FILE (eventsSince w (setSoftap b c argv w).2)),
        ¬ "wpa".toList <+: l := by
  have h : written HOSTAPD_CONFIG_FILE (eventsSince w (setSoftap b c argv w).2)
      = MINIMAL_CONFIG := by
    obtain ⟨hpre, hw⟩ := setSoftap_written b c argv w (by omega) hsock hopen
    apply written_eventsSince _ _ _ _ hpre
    rw [hw, softap_lines_minimal _ _ hargc, written_sys_open]
  refine ⟨h, ?_⟩
  rw [h]
  exact minimal_no_wpa

theorem setSoftap_minimal_witness :
    argv4.length = 4 ∧ 0 ≤ openCtrl.mSock ∧ 0 ≤ (calmWorld.openRet 0).1 ∧
    written HOSTAPD_CONFIG_FILE
      (eventsSince calmWorld (setSoftap someBuild openCtrl argv4 calmWorld).2) = MINIMAL_CONFIG :=
  ⟨by decide, by decide, by decide,
    (setSoftap_minimal someBuild openCtrl argv4 calmWorld (by decide) (by decide) (by decide)).1⟩


/-- C2 as stated fails: with four arguments and an open control socket, when the
`open` of the configuration file fails `setSoftap` returns -1 and writes
nothing, not the eleven lines. -/
theorem setSoftap_minimal_open_fails :
    argv4.length = 4 ∧ 0 ≤ openCtrl.mSock ∧ (noOpenWorld.openRet 0).1 < 0 ∧
    (setSoftap someBuild openCtrl argv4 noOpenWorld).1 = -1 ∧
    written HOSTAPD_CONFIG_FILE
      (eventsSince noOpenWorld (setSoftap someBuild openCtrl argv4 noOpenWorld).2) = [] ∧
    written HOSTAPD_CONFIG_FILE
      (eventsSince noOpenWorld (setSoftap someBuild openCtrl argv4 noOpenWorld).2)
        ≠ MINIMAL_CONFIG := by
  have h : written HOSTAPD_CONFIG_FILE
      (eventsSince noOpenWorld (setSoftap someBuild openCtrl argv4 noOpenWorld).2) = [] := by
    decide
  refine ⟨by decide, by decide, by decide, by decide, h, ?_⟩
  rw [h]
  intro hnil
  have hlen := congrArg List.length hnil
  have h171 : HT_CAPAB_LINE.length = 171 := by rfl
  simp [MINIMAL_CONFIG, h171] at hlen

theorem hasLine_segment (out l : List Char) (h : HasLine out l) : (l ++ ['\n']) <:+: out := by
  obtain ⟨pre, post, hout, _⟩ := h
  exact ⟨pre, post, by simp [hout]⟩

set_option maxRecDepth 1000000 in
theorem long_key_absent :
    ¬ ("wpa_passphrase=".toList ++ longKey ++ ['\n']) <:+:
      written HOSTAPD_CONFIG_FILE
        (eventsSince calmWorld (setSoftap someBuild openCtrl (argv7 longKey) calmWorld).2) := by
  decide

/-- A text that ends with a given newline-terminated line ends with a newline. -/
theorem ends_newline_of_suffix (d l : List Char) (h : (l ++ ['\n']) <:+ d) :
    ∃ q, d = q ++ ['\n'] := by
  obtain ⟨t, ht⟩ := h
  exact ⟨t ++ l, by simp [← ht]⟩

theorem not_hasLine_nil (l : List Char) : ¬ HasLine [] l := by
  rintro ⟨pre, post, h, _⟩
  have hlen := congrArg List.length h
  simp at hlen
  omega

/-- C1 (as amended): with at least seven arguments, `argv[5]` equal to "wpa2-psk", an
open control socket and the configuration file opened, the bytes `setSoftap`
writes contain, for every passphrase `argv[6]`, the lines `wpa=2`,
`wpa_key_mgmt=WPA-PSK` and `wpa_pairwise=CCMP`, and, when the passphrase has at
most 239 characters (so that its line fits the 256-byte buffer), the line
`wpa_passphrase=` followed by exactly the passphrase; each is a line of its
own ended by a newline. -/
theorem setSoftap_wpa2_psk (b : Build) (c : SoftapController) (argv : List CStr) (w : World)
    (hargc : 7 ≤ argv.length) (h5 : argv.getD 5 [] = "wpa2-psk".toList)
    (hsock : 0 ≤ c.mSock) (hopen : 0 ≤ (w.openRet 0).1) :
    HasLine (written HOSTAPD_CONFIG_FILE (eventsSince w (setSoftap b c argv w).2))
      "wpa=2".toList ∧
    HasLine (written HOSTAPD_CONFIG_FILE (eventsSince w (setSoftap b c argv w).2))
      "wpa_key_mgmt=WPA-PSK".toList ∧
    HasLine (written HOSTAPD_CONFIG_FILE (eventsSince w (setSoftap b c argv w).2))
      "wpa_pairwise=CCMP".toList ∧
    ((argv.getD 6 []).length ≤ 239 →
      HasLine (written HOSTAPD_CONFIG_FILE (eventsSince w (setSoftap b c argv w).2))
        ("wpa_passphrase=".toList ++ argv.getD 6 [])) := by
  obtain ⟨hpre, hw⟩ := setSoftap_written b c argv w (by omega) hsock hopen
  obtain ⟨d3, h3⟩ := channel_lines_written argv
    (wpa_lines argv (ssid_lines argv
      ((sys_open HOSTAPD_CONFIG_FILE OpenMode.creatWronlyTrunc w).2,
       (sys_open HOSTAPD_CONFIG_FILE OpenMode.creatWronlyTrunc w).2.stack)))
  obtain ⟨d1, h1, hsuf⟩ := ssid_lines_written argv
    ((sys_open HOSTAPD_CONFIG_FILE OpenMode.creatWronlyTrunc w).2,
     (sys_open HOSTAPD_CONFIG_FILE OpenMode.creatWronlyTrunc w).2.stack)
  obtain ⟨x, h2, hx⟩ := wpa_lines_written argv (ssid_lines argv
      ((sys_open HOSTAPD_CONFIG_FILE OpenMode.creatWronlyTrunc w).2,
       (sys_open HOSTAPD_CONFIG_FILE OpenMode.creatWronlyTrunc w).2.stack)) hargc h5
  obtain ⟨q, hq⟩ := ends_newline_of_suffix d1 "dtim_period=2".toList hsuf
  have hout : written HOSTAPD_CONFIG_FILE (eventsSince w (setSoftap b c argv w).2)
      = d1 ++ ("wpa=2\n".toList ++ ("wpa_key_mgmt=WPA-PSK\n".toList ++
          ("wpa_pairwise=CCMP\n".toList ++ x))) ++ d3 := by
    apply written_eventsSince _ _ _ _ hpre
    rw [hw]
    unfold softap_lines
    rw [h3, h2, h1, written_sys_open]
    simp only [List.append_assoc]
  rw [hout]
  refine ⟨⟨d1, "wpa_key_mgmt=WPA-PSK\n".toList ++ ("wpa_pairwise=CCMP\n".toList ++ x) ++ d3,
      ?_, Or.inr ⟨q, hq⟩⟩,
    ⟨d1 ++ "wpa=2\n".toList, "wpa_pairwise=CCMP\n".toList ++ x ++ d3, ?_,
      Or.inr ⟨d1 ++ "wpa=2".toList, ?_⟩⟩,
    ⟨d1 ++ "wpa=2\n".toList ++ "wpa_key_mgmt=WPA-PSK\n".toList, x ++ d3, ?_,
      Or.inr ⟨d1 ++ "wpa=2\n".toList ++ "wpa_key_mgmt=WPA-PSK".toList, ?_⟩⟩,
    fun hp => ⟨d1 ++ "wpa=2\n".toList ++ "wpa_key_mgmt=WPA-PSK\n".toList ++
      "wpa_pairwise=CCMP\n".toList, d3, ?_,
      Or.inr ⟨d1 ++ "wpa=2\n".toList ++ "wpa_key_mgmt=WPA-PSK\n".toList ++
        "wpa_pairwise=CCMP".toList, ?_⟩⟩⟩
  · simp
  · simp
  · simp
  · simp
  · simp
  · rw [hx hp]
    simp
  · simp

theorem setSoftap_wpa2_psk_witness :
    7 ≤ (argv7 longKey).length ∧
    (argv7 longKey).getD 5 [] = "wpa2-psk".toList ∧
    0 ≤ openCtrl.mSock ∧ 0 ≤ (calmWorld.openRet 0).1 ∧
    HasLine (written HOSTAPD_CONFIG_FILE
        (eventsSince calmWorld (setSoftap someBuild openCtrl (argv7 longKey) calmWorld).2))
      "wpa_pairwise=CCMP".toList ∧
    ((argv7 "secret123".toList).getD 6 []).length ≤ 239 ∧
    HasLine (written HOSTAPD_CONFIG_FILE
        (eventsSince calmWorld
          (setSoftap someBuild openCtrl (argv7 "secret123".toList) calmWorld).2))
      ("wpa_passphrase=".toList ++ (argv7 "secret123".toList).getD 6 []) :=
  ⟨by decide, by decide, by decide, by decide,
    (setSoftap_wpa2_psk someBuild openCtrl (argv7 longKey) calmWorld
      (by decide) (by decide) (by decide) (by decide)).2.2.1,
    by decide,
    (setSoftap_wpa2_psk someBuild openCtrl (argv7 "secret123".toList) calmWorld
      (by decide) (by decide) (by decide) (by decide)).2.2.2 (by decide)⟩

/-- C1 as stated fails in three ways, each with seven arguments and `argv[5]` equal
to "wpa2-psk".  For the 240-character passphrase `longKey` the bytes written
hold no line `wpa_passphrase=` followed by the passphrase and a newline: the
256-byte buffer keeps 255 characters of the line and a NUL takes the place
of the newline.  With a closed control socket, and with an `open` of the
configuration file that fails, `setSoftap` writes nothing, so not even the
line `wpa=2`. -/
theorem setSoftap_wpa2_psk_refuted :
    (7 ≤ (argv7 longKey).length ∧ (argv7 longKey).getD 5 [] = "wpa2-psk".toList ∧
      (argv7 longKey).getD 6 [] = longKey ∧
      0 ≤ openCtrl.mSock ∧ 0 ≤ (calmWorld.openRet 0).1 ∧
      ¬ HasLine (written HOSTAPD_CONFIG_FILE
          (eventsSince calmWorld (setSoftap someBuild openCtrl (argv7 longKey) calmWorld).2))
        ("wpa_passphrase=".toList ++ longKey)) ∧
    (7 ≤ (argv7 "secret123".toList).length ∧
      (argv7 "secret123".toList).getD 5 [] = "wpa2-psk".toList ∧
      closedCtrl.mSock < 0 ∧
      ¬ HasLine (written HOSTAPD_CONFIG_FILE
          (eventsSince calmWorld
            (setSoftap someBuild closedCtrl (argv7 "secret123".toList) calmWorld).2))
        "wpa=2".toList) ∧
    (0 ≤ openCtrl.mSock ∧ (noOpenWorld.openRet 0).1 < 0 ∧
      ¬ HasLine (written HOSTAPD_CONFIG_FILE
          (eventsSince noOpenWorld
            (setSoftap someBuild openCtrl (argv7 "secret123".toList) noOpenWorld).2))
        "wpa=2".toList) := by
  refine ⟨⟨by decide, by decide, rfl, by decide, by decide,
      fun h => long_key_absent (hasLine_segment _ _ h)⟩,
    ⟨by decide, by decide, by decide, ?_⟩, ⟨by decide, by decide, ?_⟩⟩
  · have h : written HOSTAPD_CONFIG_FILE
        (eventsSince calmWorld
          (setSoftap someBuild closedCtrl (argv7 "secret123".toList) calmWorld).2) = [] := by
      decide
    rw [h]
    exact not_hasLine_nil _
  · have h : written HOSTAPD_CONFIG_FILE
        (eventsSince noOpenWorld
          (setSoftap someBuild openCtrl (argv7 "secret123".toList) noOpenWorld).2) = [] := by
      decide
    rw [h]
    exact not_hasLine_nil _

/-! ## Starting the service -/

@[simp] theorem emit_sysProp (e : Event) (w : World) : (emit e w).sysProp = w.sysProp := rfl
@[simp] theorem next_look_trace (w : World) : (next_look w).trace = w.trace := rfl
@[simp] theorem next_look_sysProp (w : World) (n : Nat) :
    (next_look w).sysProp n = w.sysProp (n + 1) := rfl
@[simp] theorem sys_usleep_sysProp (n : Nat) (w : World) :
    (sys_usleep n w).sysProp = w.sysProp := rfl

theorem stopped_ne_running : stopped ≠ running := by decide

/-- A round of the polling loop when the property was found before. -/
theorem start_poll_found (b : Build) (hb : b.HAVE_LIBC_SYSTEM_PROPERTIES = true)
    (count serial : Nat) (w : World) :
    start_poll b (count + 1) true serial w =
      if (w.sysProp 0).value = running then
        (0, emit (Event.propertyRead (w.sysProp 0).value (w.sysProp 0).serial) (next_look w))
      else if (w.sysProp 0).serial ≠ serial ∧ (w.sysProp 0).value = stopped then
        (-1, emit (Event.propertyRead (w.sysProp 0).value (w.sysProp 0).serial) (next_look w))
      else start_poll b count true serial (sys_usleep 100000
        (emit (Event.propertyRead (w.sysProp 0).value (w.sysProp 0).serial) (next_look w))) := by
  simp [start_poll, hb]

/-- A round of the polling loop when the property was not found before. -/
theorem start_poll_unfound (b : Build) (hb : b.HAVE_LIBC_SYSTEM_PROPERTIES = true)
    (count serial : Nat) (w : World) :
    start_poll b (count + 1) false serial w =
      if (w.sysProp 0).found = true then
        if (w.sysProp 0).value = running then
          (0, emit (Event.propertyRead (w.sysProp 0).value (w.sysProp 0).serial)
            (emit (Event.propertyFind HOSTAPD_PROP_NAME (w.sysProp 0).found) (next_look w)))
        else if (w.sysProp 0).serial ≠ serial ∧ (w.sysProp 0).value = stopped then
          (-1, emit (Event.propertyRead (w.sysProp 0).value (w.sysProp 0).serial)
            (emit (Event.propertyFind HOSTAPD_PROP_NAME (w.sysProp 0).found) (next_look w)))
        else start_poll b count true serial (sys_usleep 100000
          (emit (Event.propertyRead (w.sysProp 0).value (w.sysProp 0).serial)
            (emit (Event.propertyFind HOSTAPD_PROP_NAME (w.sysProp 0).found) (next_look w))))
      else start_poll b count false serial (sys_usleep 100000
        (emit (Event.propertyFind HOSTAPD_PROP_NAME (w.sysProp 0).found) (next_look w))) := by
  by_cases h : (w.sysProp 0).found = true <;> simp [start_poll, hb, h]

theorem sleeps100ms_append (a b : List Event) :
    sleeps100ms (a ++ b) = sleeps100ms a + sleeps100ms b := by
  simp [sleeps100ms]

/-- The polling loop returns -1 by round `k` when round `k` reads "stopped" under a
changed serial and no round up to `k` reads "running". -/
theorem start_poll_stopped (b : Build) (hb : b.HAVE_LIBC_SYSTEM_PROPERTIES = true)
    (serial : Nat) :
    ∀ (k count : Nat) (pi : Bool) (w : World), k < count →
      (pi = true ∨ ∃ j, j ≤ k ∧ (w.sysProp j).found = true) →
      (w.sysProp k).value = stopped → (w.sysProp k).serial ≠ serial →
      (∀ j, j ≤ k → ¬ ((pi = true ∨ ∃ i, i ≤ j ∧ (w.sysProp i).found = true) ∧
        (w.sysProp j).value = running)) →
      (start_poll b count pi serial w).1 = -1 ∧
      ∃ evs, (start_poll b count pi serial w).2.trace = w.trace ++ evs ∧
        sleeps100ms evs ≤ k := by
  intro k
  induction k with
  | zero =>
    intro count pi w hc hvis hval hser hno
    obtain ⟨c, rfl⟩ : ∃ c, count = c + 1 := ⟨count - 1, by omega⟩
    have hnr : (w.sysProp 0).value ≠ running := fun hr => hno 0 (le_refl 0) ⟨hvis, hr⟩
    cases pi with
    | true =>
      rw [start_poll_found b hb, if_neg hnr, if_pos ⟨hser, hval⟩]
      exact ⟨rfl, [Event.propertyRead (w.sysProp 0).value (w.sysProp 0).serial], by simp, by simp [sleeps100ms]⟩
    | false =>
      have hf : (w.sysProp 0).found = true := by
        rcases hvis with h | ⟨j, hj, hf⟩
        · exact absurd h (by decide)
        · have : j = 0 := by omega
          subst this
          exact hf
      rw [start_poll_unfound b hb, if_pos hf, if_neg hnr, if_pos ⟨hser, hval⟩]
      exact ⟨rfl, [Event.propertyFind HOSTAPD_PROP_NAME (w.sysProp 0).found,
          Event.propertyRead (w.sysProp 0).value (w.sysProp 0).serial], by simp, by simp [sleeps100ms]⟩
  | succ k ih =>
    intro count pi w hc hvis hval hser hno
    obtain ⟨c, rfl⟩ : ∃ c, count = c + 1 := ⟨count - 1, by omega⟩
    have hkc : k < c := by omega
    cases pi with
    | true =>
      have hnr : (w.sysProp 0).value ≠ running :=
        fun hr => hno 0 (Nat.zero_le _) ⟨Or.inl rfl, hr⟩
      rw [start_poll_found b hb, if_neg hnr]
      split
      · exact ⟨rfl, [Event.propertyRead (w.sysProp 0).value (w.sysProp 0).serial], by simp, by simp [sleeps100ms]⟩
      · obtain ⟨hret, evs, htr, hsl⟩ := ih c true
          (sys_usleep 100000
            (emit (Event.propertyRead (w.sysProp 0).value (w.sysProp 0).serial) (next_look w)))
          hkc (Or.inl rfl) (by simpa using hval) (by simpa using hser)
          (fun j hj hh => hno (j + 1) (by omega) ⟨Or.inl rfl, by simpa using hh.2⟩)
        refine ⟨hret, Event.propertyRead (w.sysProp 0).value (w.sysProp 0).serial ::
          Event.usleep 100000 :: evs, by simp [htr], ?_⟩
        have : sleeps100ms (Event.propertyRead (w.sysProp 0).value (w.sysProp 0).serial ::
            Event.usleep 100000 :: evs) = 1 + sleeps100ms evs := by
          simp [sleeps100ms, List.count_cons]
          omega
        omega
    | false =>
      rw [start_poll_unfound b hb]
      split
      · rename_i hf
        have hnr : (w.sysProp 0).value ≠ running :=
          fun hr => hno 0 (Nat.zero_le _) ⟨Or.inr ⟨0, le_refl 0, hf⟩, hr⟩
        rw [if_neg hnr]
        split
        · exact ⟨rfl, [Event.propertyFind HOSTAPD_PROP_NAME (w.sysProp 0).found,
          Event.propertyRead (w.sysProp 0).value (w.sysProp 0).serial], by simp, by simp [sleeps100ms]⟩
        · obtain ⟨hret, evs, htr, hsl⟩ := ih c true
            (sys_usleep 100000
              (emit (Event.propertyRead (w.sysProp 0).value (w.sysProp 0).serial)
                (emit (Event.propertyFind HOSTAPD_PROP_NAME (w.sysProp 0).found) (next_look w))))
            hkc (Or.inl rfl) (by simpa using hval) (by simpa using hser)
            (fun j hj hh => hno (j + 1) (by omega)
              ⟨Or.inr ⟨0, Nat.zero_le _, hf⟩, by simpa using hh.2⟩)
          refine ⟨hret, Event.propertyFind HOSTAPD_PROP_NAME (w.sysProp 0).found ::
            Event.propertyRead (w.sysProp 0).value (w.sysProp 0).serial ::
            Event.usleep 100000 :: evs, by simp [htr], ?_⟩
          have : sleeps100ms (Event.propertyFind HOSTAPD_PROP_NAME (w.sysProp 0).found ::
              Event.propertyRead (w.sysProp 0).value (w.sysProp 0).serial ::
              Event.usleep 100000 :: evs) = 1 + sleeps100ms evs := by
            simp [sleeps100ms, List.count_cons]
            omega
          omega
      · rename_i hf
        have hvis' : ∃ j, j ≤ k ∧ (w.sysProp (j + 1)).found = true := by
          rcases hvis with h | ⟨j, hj, hfj⟩
          · exact absurd h (by decide)
          · cases j with
            | zero => exact absurd hfj hf
            | succ j => exact ⟨j, by omega, hfj⟩
        obtain ⟨hret, evs, htr, hsl⟩ := ih c false
          (sys_usleep 100000
            (emit (Event.propertyFind HOSTAPD_PROP_NAME (w.sysProp 0).found) (next_look w)))
          hkc (Or.inr (by simpa using hvis')) (by simpa using hval) (by simpa using hser)
          (fun j hj hh => by
            rcases hh with ⟨hv | ⟨i, hi, hfi⟩, hr⟩
            · exact absurd hv (by decide)
            · exact hno (j + 1) (by omega)
                ⟨Or.inr ⟨i + 1, by omega, by simpa using hfi⟩, by simpa using hr⟩)
        refine ⟨hret, Event.propertyFind HOSTAPD_PROP_NAME (w.sysProp 0).found ::
          Event.usleep 100000 :: evs, by simp [htr], ?_⟩
        have : sleeps100ms (Event.propertyFind HOSTAPD_PROP_NAME (w.sysProp 0).found ::
            Event.usleep 100000 :: evs) = 1 + sleeps100ms evs := by
          simp [sleeps100ms, List.count_cons]
          omega
        omega

/-- What `wifi_start_hostapd` does before it polls, when the service is not
"running" at entry: the status query, the socket cleanup, the look-up of the
property, the start request and the yield. -/
theorem wifi_start_hostapd_unfold (b : Build) (hb : b.HAVE_LIBC_SYSTEM_PROPERTIES = true)
    (w : World) (hentry : w.propertyGetRet 0 ≠ running) :
    ∃ w3 : World,
      w3.trace = w.trace ++ [Event.propertyGet HOSTAPD_PROP_NAME (w.propertyGetRet 0),
        Event.wpaCtrlCleanup, Event.propertyFind HOSTAPD_PROP_NAME (w.sysProp 0).found,
        Event.propertySet "ctl.start".toList HOSTAPD_NAME, Event.schedYield] ∧
      (∀ n, w3.sysProp n = w.sysProp (n + 1)) ∧
      wifi_start_hostapd b w = start_poll b 300 (w.sysProp 0).found (entrySerial w) w3 := by
  refine ⟨sched_yield (property_set "ctl.start".toList HOSTAPD_NAME
    (next_look (emit (Event.propertyFind HOSTAPD_PROP_NAME (w.sysProp 0).found)
      (emit Event.wpaCtrlCleanup (property_get HOSTAPD_PROP_NAME w).2)))), ?_, ?_, ?_⟩
  · simp [sched_yield, property_set]
  · intro n
    rfl
  · unfold wifi_start_hostapd
    have h1 : (property_get HOSTAPD_PROP_NAME w).1.2 = w.propertyGetRet 0 := rfl
    have h2 : ∀ e, (emit e (property_get HOSTAPD_PROP_NAME w).2).sysProp = w.sysProp :=
      fun _ => rfl
    simp only [h1, hentry, and_false, if_false, hb, Bool.true_and, if_true, h2]
    rfl

/-- C3: with the property area compiled in, when the status is not "running" at
entry and some poll `k < 300` reads "stopped" with a serial different from the
one captured before the start request, while no poll up to `k` reads "running",
`wifi_start_hostapd` returns -1 after at most `k` sleeps of 100 ms, fewer than
the 300 sleeps of the full timeout. -/
theorem wifi_start_hostapd_crash (b : Build) (hb : b.HAVE_LIBC_SYSTEM_PROPERTIES = true)
    (w : World) (k : Nat) (hentry : w.propertyGetRet 0 ≠ running) (hk : k < 300)
    (hsees : pollSees w k) (hval : (pollObs w k).value = stopped)
    (hser : (pollObs w k).serial ≠ entrySerial w)
    (hno : ∀ j, j ≤ k → ¬ (pollSees w j ∧ (pollObs w j).value = running)) :
    (wifi_start_hostapd b w).1 = -1 ∧
    sleeps100ms (eventsSince w (wifi_start_hostapd b w).2) ≤ k ∧
    sleeps100ms (eventsSince w (wifi_start_hostapd b w).2) < 300 := by
  obtain ⟨w3, htr, hsp, heq⟩ := wifi_start_hostapd_unfold b hb w hentry
  have hloop := start_poll_stopped b hb (entrySerial w) k 300 (w.sysProp 0).found w3 hk
    (by
      rcases hsees with h | ⟨j, hj, hf⟩
      · exact Or.inl h
      · exact Or.inr ⟨j, hj, by rw [hsp]; exact hf⟩)
    (by rw [hsp]; exact hval) (by rw [hsp]; exact hser)
    (fun j hj hh => hno j hj ⟨by
      rcases hh.1 with h | ⟨i, hi, hf⟩
      · exact Or.inl h
      · exact Or.inr ⟨i, hi, by rw [hsp] at hf; exact hf⟩, by
      have := hh.2
      rw [hsp] at this
      exact this⟩)
  obtain ⟨hret, evs, hevs, hsl⟩ := hloop
  rw [heq]
  have hev : eventsSince w (start_poll b 300 (w.sysProp 0).found (entrySerial w) w3).2
      = [Event.propertyGet HOSTAPD_PROP_NAME (w.propertyGetRet 0),
        Event.wpaCtrlCleanup, Event.propertyFind HOSTAPD_PROP_NAME (w.sysProp 0).found,
        Event.propertySet "ctl.start".toList HOSTAPD_NAME, Event.schedYield] ++ evs := by
    apply eventsSince_append
    rw [hevs, htr, List.append_assoc]
  have hcount : sleeps100ms (eventsSince w
      (start_poll b 300 (w.sysProp 0).found (entrySerial w) w3).2) = sleeps100ms evs := by
    rw [hev, sleeps100ms_append]
    simp [sleeps100ms]
  rw [hcount]
  exact ⟨hret, hsl, by omega⟩

theorem wifi_start_hostapd_crash_witness :
    crashWorld.propertyGetRet 0 ≠ running ∧ pollSees crashWorld 2 ∧
    (pollObs crashWorld 2).value = stopped ∧
    (pollObs crashWorld 2).serial ≠ entrySerial crashWorld ∧
    (wifi_start_hostapd someBuild crashWorld).1 = -1 ∧
    sleeps100ms (eventsSince crashWorld (wifi_start_hostapd someBuild crashWorld).2) ≤ 2 :=
  have h := wifi_start_hostapd_crash someBuild rfl crashWorld 2 (by decide) (by decide)
    (Or.inl rfl) rfl (by decide)
    (fun j hj hh => by
      have h3 : j = 0 ∨ j = 1 ∨ j = 2 := by omega
      rcases h3 with rfl | rfl | rfl <;> exact absurd hh.2 (by decide))
  ⟨by decide, Or.inl rfl, rfl, by decide, h.1, h.2.1⟩

/-! ## Unloading a module -/

@[simp] theorem delete_module_fst (m : CStr) (w : World) :
    (delete_module m w).1 = (w.deleteModuleRet 0).1 := rfl
@[simp] theorem delete_module_errno (m : CStr) (w : World) :
    (delete_module m w).2.errno = (w.deleteModuleRet 0).2 := rfl
@[simp] theorem delete_module_trace (m : CStr) (w : World) :
    (delete_module m w).2.trace = w.trace ++ [Event.deleteModule m (w.deleteModuleRet 0).1] := rfl
@[simp] theorem delete_module_feed (m : CStr) (w : World) :
    (delete_module m w).2.deleteModuleRet = w.deleteModuleRet.tail := rfl
@[simp] theorem sys_usleep_deleteModuleRet (n : Nat) (w : World) :
    (sys_usleep n w).deleteModuleRet = w.deleteModuleRet := rfl

theorem rmmod_loop_succ (m : CStr) (n : Nat) (ret : Int) (w : World) :
    rmmod_loop m (n + 1) ret w =
      if busy (w.deleteModuleRet 0) then
        rmmod_loop m n (w.deleteModuleRet 0).1 (sys_usleep 500000 (delete_module m w).2)
      else ((w.deleteModuleRet 0).1, (delete_module m w).2) := by
  simp [rmmod_loop, busy]

/-- The retry loop with `n` attempts left stops at the first attempt that is not
busy; it never makes more than `n` attempts. -/
theorem rmmod_loop_spec (m : CStr) :
    ∀ (n : Nat) (ret : Int) (w : World),
      (∃ evs, (rmmod_loop m n ret w).2.trace = w.trace ++ evs ∧ deleteCalls m evs ≤ n) ∧
      (∀ k, k < n → (∀ j, j < k → busy (w.deleteModuleRet j)) → ¬ busy (w.deleteModuleRet k) →
        (rmmod_loop m n ret w).1 = (w.deleteModuleRet k).1 ∧
        (rmmod_loop m n ret w).2.trace = w.trace ++
          (retryEvents m w.deleteModuleRet k ++
            [Event.deleteModule m (w.deleteModuleRet k).1])) ∧
      ((∀ j, j < n → busy (w.deleteModuleRet j)) →
        (rmmod_loop m n ret w).2.trace = w.trace ++ retryEvents m w.deleteModuleRet n ∧
        (0 < n → (rmmod_loop m n ret w).1 < 0)) := by
  intro n
  induction n with
  | zero =>
    intro ret w
    refine ⟨⟨[], by simp [rmmod_loop], by simp [deleteCalls]⟩, fun k hk => absurd hk (by omega),
      fun _ => ⟨by simp [rmmod_loop, retryEvents], fun h => absurd h (by omega)⟩⟩
  | succ n ih =>
    intro ret w
    rw [rmmod_loop_succ]
    by_cases hb : busy (w.deleteModuleRet 0)
    · rw [if_pos hb]
      obtain ⟨⟨evs, hevs, hcnt⟩, hstop, hall⟩ :=
        ih (w.deleteModuleRet 0).1 (sys_usleep 500000 (delete_module m w).2)
      refine ⟨⟨Event.deleteModule m (w.deleteModuleRet 0).1 :: Event.usleep 500000 :: evs,
        by simp [hevs], ?_⟩, ?_, ?_⟩
      · have : deleteCalls m (Event.deleteModule m (w.deleteModuleRet 0).1 ::
            Event.usleep 500000 :: evs) = deleteCalls m evs + 1 := by
          simp [deleteCalls, List.countP_cons]
        omega
      · intro k hk hbefore hnot
        cases k with
        | zero => exact absurd hb hnot
        | succ k =>
          obtain ⟨hr, ht⟩ := hstop k (by omega) (fun j hj => hbefore (j + 1) (by omega)) hnot
          refine ⟨hr, ?_⟩
          rw [ht]
          simp [retryEvents, Feed.tail]
      · intro hbusy
        obtain ⟨ht, hneg⟩ := hall (fun j hj => hbusy (j + 1) (by omega))
        refine ⟨by rw [ht]; simp [retryEvents, Feed.tail], fun _ => ?_⟩
        cases n with
        | zero =>
          simp only [rmmod_loop]
          exact hb.1
        | succ n => exact hneg (by omega)
    · rw [if_neg hb]
      refine ⟨⟨[Event.deleteModule m (w.deleteModuleRet 0).1], by simp, ?_⟩, ?_, ?_⟩
      · simp [deleteCalls, List.countP_cons]
      · intro k hk hbefore hnot
        cases k with
        | zero => exact ⟨rfl, by simp [retryEvents]⟩
        | succ k => exact absurd (hbefore 0 (by omega)) hb
      · intro hbusy
        exact absurd (hbusy 0 (by omega)) hb

/-- C4: whatever the outcomes of `delete_module`, `rmmod` calls it at most 10 times;
it stops at the first attempt that is not a failure with errno EAGAIN and returns
that attempt's result, every earlier attempt being followed by a sleep of
500 ms; and when the first 10 attempts all fail with EAGAIN it returns a
nonzero result after exactly 10 attempts, each followed by a sleep of 500 ms. -/
theorem rmmod_retries (m : CStr) (w : World) :
    deleteCalls m (eventsSince w (rmmod m w).2) ≤ 10 ∧
    (∀ k, k < 10 → (∀ j, j < k → busy (w.deleteModuleRet j)) → ¬ busy (w.deleteModuleRet k) →
      (rmmod m w).1 = (w.deleteModuleRet k).1 ∧
      eventsSince w (rmmod m w).2 =
        retryEvents m w.deleteModuleRet k ++ [Event.deleteModule m (w.deleteModuleRet k).1]) ∧
    ((∀ j, j < 10 → busy (w.deleteModuleRet j)) →
      (rmmod m w).1 ≠ 0 ∧ eventsSince w (rmmod m w).2 = retryEvents m w.deleteModuleRet 10 ∧
      deleteCalls m (eventsSince w (rmmod m w).2) = 10) := by
  obtain ⟨⟨evs, hevs, hcnt⟩, hstop, hall⟩ := rmmod_loop_spec m 10 (-1) w
  have hrm : rmmod m w = rmmod_loop m 10 (-1) w := rfl
  rw [hrm]
  refine ⟨?_, ?_, ?_⟩
  · rw [eventsSince_append w _ evs hevs]
    exact hcnt
  · intro k hk hbefore hnot
    obtain ⟨hr, ht⟩ := hstop k hk hbefore hnot
    exact ⟨hr, eventsSince_append w _ _ ht⟩
  · intro hbusy
    obtain ⟨ht, hneg⟩ := hall hbusy
    have hev := eventsSince_append w _ _ ht
    have hlt : (rmmod_loop m 10 (-1) w).1 < 0 := hneg (by omega)
    refine ⟨by omega, hev, ?_⟩
    rw [hev]
    simp [retryEvents, deleteCalls, List.countP_cons]

theorem rmmod_retries_witness :
    (∀ j, j < 3 → busy (busyWorld.deleteModuleRet j)) ∧ ¬ busy (busyWorld.deleteModuleRet 3) ∧
    (rmmod "libra".toList busyWorld).1 = (busyWorld.deleteModuleRet 3).1 ∧
    (∀ j, j < 10 → busy (stuckWorld.deleteModuleRet j)) ∧
    (rmmod "libra".toList stuckWorld).1 ≠ 0 ∧
    deleteCalls "libra".toList (eventsSince stuckWorld (rmmod "libra".toList stuckWorld).2) = 10 :=
  have hb : ∀ j, j < 3 → busy (busyWorld.deleteModuleRet j) := by decide
  have hs : ∀ j, j < 10 → busy (stuckWorld.deleteModuleRet j) := by decide
  ⟨hb, by decide,
    ((rmmod_retries "libra".toList busyWorld).2.1 3 (by decide) hb (by decide)).1,
    hs,
    ((rmmod_retries "libra".toList stuckWorld).2.2 hs).1,
    ((rmmod_retries "libra".toList stuckWorld).2.2 hs).2.2⟩

/-! ## Stopping the driver -/

/-- The actions of the retry loop are calls of `delete_module` for its module and
sleeps, with a call first when an attempt is left. -/
theorem rmmod_loop_events (m : CStr) :
    ∀ (n : Nat) (ret : Int) (w : World),
      ∃ evs, (rmmod_loop m n ret w).2.trace = w.trace ++ evs ∧
        (∀ e, e ∈ evs → e = Event.usleep 500000 ∨ ∃ r, e = Event.deleteModule m r) ∧
        (0 < n → 0 < deleteCalls m evs) := by
  intro n
  induction n with
  | zero =>
    intro ret w
    exact ⟨[], by simp [rmmod_loop], by simp, fun h => absurd h (by omega)⟩
  | succ n ih =>
    intro ret w
    rw [rmmod_loop_succ]
    split
    · obtain ⟨evs, hevs, hmem, _⟩ :=
        ih (w.deleteModuleRet 0).1 (sys_usleep 500000 (delete_module m w).2)
      refine ⟨Event.deleteModule m (w.deleteModuleRet 0).1 :: Event.usleep 500000 :: evs,
        by simp [hevs], ?_, fun _ => by simp [deleteCalls, List.countP_cons]⟩
      intro e he
      simp only [List.mem_cons] at he
      rcases he with rfl | rfl | he
      · exact Or.inr ⟨_, rfl⟩
      · exact Or.inl rfl
      · exact hmem e he
    · refine ⟨[Event.deleteModule m (w.deleteModuleRet 0).1], by simp, ?_,
        fun _ => by simp [deleteCalls, List.countP_cons]⟩
      intro e he
      simp only [List.mem_singleton] at he
      exact Or.inr ⟨_, he⟩

/-- Actions that are sleeps and calls for module `m` hold no call for another
module. -/
theorem deleteCalls_other (m m1 : CStr) (hne : m ≠ m1) (evs : List Event)
    (h : ∀ e, e ∈ evs → e = Event.usleep 500000 ∨ ∃ r, e = Event.deleteModule m r) :
    deleteCalls m1 evs = 0 := by
  unfold deleteCalls
  rw [List.countP_eq_zero]
  intro e he
  rcases h e he with rfl | ⟨r, rfl⟩
  · simp
  · simp [hne]

theorem deleteCalls_append (m : CStr) (a b : List Event) :
    deleteCalls m (a ++ b) = deleteCalls m a + deleteCalls m b := by
  simp [deleteCalls]

/-- The first action of `rmmod` is a call of `delete_module` for its module; the
others are sleeps and further calls for that module. -/
theorem rmmod_first_call (m : CStr) (w : World) :
    ∃ rest, (rmmod m w).2.trace
        = w.trace ++ Event.deleteModule m (w.deleteModuleRet 0).1 :: rest ∧
      (∀ e, e ∈ rest → e = Event.usleep 500000 ∨ ∃ r, e = Event.deleteModule m r) := by
  have hrm : rmmod m w = rmmod_loop m (9 + 1) (-1) w := rfl
  rw [hrm, rmmod_loop_succ]
  split
  · obtain ⟨evs, hevs, hmem, _⟩ := rmmod_loop_events m 9 (w.deleteModuleRet 0).1
      (sys_usleep 500000 (delete_module m w).2)
    refine ⟨Event.usleep 500000 :: evs, by simp [hevs], ?_⟩
    intro e he
    simp only [List.mem_cons] at he
    rcases he with rfl | he
    · exact Or.inl rfl
    · exact hmem e he
  · exact ⟨[], by simp, by simp⟩

/-- C5 (as amended): for every behaviour of `delete_module`, with the control socket
open the first action of `stopDriver` is a call of `delete_module` for "libra",
the actions of that unload hold no call for "librasdioif" and those after it
hold no call for "libra"; when the unload of "libra" returns nonzero,
`delete_module` is never called for "librasdioif" and `stopDriver` returns that
same nonzero result; when it returns 0, "librasdioif" is unloaded next and its
result returned.  With the socket closed `stopDriver` returns -1 and makes no
call at all. -/
theorem stopDriver_order (c : SoftapController) (iface : Option CStr) (w : World) :
    (0 ≤ c.mSock →
      ∃ rest evs2,
        eventsSince w (rmmod "libra".toList w).2
          = Event.deleteModule "libra".toList (w.deleteModuleRet 0).1 :: rest ∧
        eventsSince w (stopDriver c iface w).2
          = (Event.deleteModule "libra".toList (w.deleteModuleRet 0).1 :: rest) ++ evs2 ∧
        deleteCalls "librasdioif".toList
          (Event.deleteModule "libra".toList (w.deleteModuleRet 0).1 :: rest) = 0 ∧
        deleteCalls "libra".toList evs2 = 0 ∧
        ((rmmod "libra".toList w).1 ≠ 0 →
          evs2 = [] ∧
          deleteCalls "librasdioif".toList (eventsSince w (stopDriver c iface w).2) = 0 ∧
          (stopDriver c iface w).1 = (rmmod "libra".toList w).1 ∧
          (stopDriver c iface w).1 ≠ 0) ∧
        ((rmmod "libra".toList w).1 = 0 →
          0 < deleteCalls "librasdioif".toList evs2 ∧
          (stopDriver c iface w).1
            = (rmmod "librasdioif".toList (rmmod "libra".toList w).2).1)) ∧
    (c.mSock < 0 →
      eventsSince w (stopDriver c iface w).2 = [] ∧ (stopDriver c iface w).1 = -1) := by
  have hne : "libra".toList ≠ "librasdioif".toList := by decide
  obtain ⟨rest, h1, hmem1⟩ := rmmod_first_call "libra".toList w
  obtain ⟨evs2, h2, hmem2, hpos2⟩ :=
    rmmod_loop_events "librasdioif".toList 10 (-1) (rmmod "libra".toList w).2
  have hmem1' : ∀ e, e ∈ Event.deleteModule "libra".toList (w.deleteModuleRet 0).1 :: rest →
      e = Event.usleep 500000 ∨ ∃ r, e = Event.deleteModule "libra".toList r := by
    intro e he
    simp only [List.mem_cons] at he
    rcases he with rfl | he
    · exact Or.inr ⟨_, rfl⟩
    · exact hmem1 e he
  have hz1 := deleteCalls_other _ _ hne _ hmem1'
  have hz2 := deleteCalls_other _ _ (Ne.symm hne) evs2 hmem2
  have hev1 := eventsSince_append w _ _ h1
  have hrm : ∀ m w, rmmod m w = rmmod_loop m 10 (-1) w := fun _ _ => rfl
  constructor
  · intro hsock
    have hs : ¬ c.mSock < 0 := not_lt.mpr hsock
    by_cases hr : (rmmod "libra".toList w).1 ≠ 0
    · have hst : stopDriver c iface w = rmmod "libra".toList w := by
        unfold stopDriver
        rw [if_neg hs]
        exact if_pos hr
      have hev : eventsSince w (stopDriver c iface w).2
          = Event.deleteModule "libra".toList (w.deleteModuleRet 0).1 :: rest := by
        rw [hst]
        exact hev1
      refine ⟨rest, [], hev1, by rw [hev, List.append_nil], hz1, by simp [deleteCalls],
        fun _ => ⟨rfl, by rw [hev]; exact hz1, by rw [hst], by rw [hst]; exact hr⟩,
        fun h0 => absurd h0 hr⟩
    · have hst : stopDriver c iface w
          = rmmod "librasdioif".toList (rmmod "libra".toList w).2 := by
        unfold stopDriver
        rw [if_neg hs]
        exact if_neg hr
      have hev : eventsSince w (stopDriver c iface w).2
          = (Event.deleteModule "libra".toList (w.deleteModuleRet 0).1 :: rest) ++ evs2 := by
        rw [hst, hrm]
        apply eventsSince_append
        rw [h2, h1, List.append_assoc]
      exact ⟨rest, evs2, hev1, hev, hz1, hz2, fun h => absurd h hr,
        fun _ => ⟨hpos2 (by omega), by rw [hst]⟩⟩
  · intro hs
    have hst : stopDriver c iface w = (-1, w) := by
      unfold stopDriver
      exact if_pos hs
    rw [hst]
    exact ⟨by simp [eventsSince], rfl⟩

theorem stopDriver_order_witness :
    0 ≤ openCtrl.mSock ∧ (rmmod "libra".toList stuckWorld).1 ≠ 0 ∧
    deleteCalls "librasdioif".toList
      (eventsSince stuckWorld (stopDriver openCtrl none stuckWorld).2) = 0 ∧
    (stopDriver openCtrl none stuckWorld).1 = (rmmod "libra".toList stuckWorld).1 := by
  obtain ⟨rest, evs2, _, _, _, _, hfail, _⟩ :=
    (stopDriver_order openCtrl none stuckWorld).1 (by decide)
  have h := hfail (by decide)
  exact ⟨by decide, by decide, h.2.1, h.2.2.1⟩

/-- C5 as stated fails: with a closed control socket `stopDriver` returns -1 without
any action, so it does not attempt to unload "libra". -/
theorem stopDriver_closed_socket :
    closedCtrl.mSock < 0 ∧
    eventsSince stuckWorld (stopDriver closedCtrl none stuckWorld).2 = [] ∧
    deleteCalls "libra".toList
      (eventsSince stuckWorld (stopDriver closedCtrl none stuckWorld).2) = 0 ∧
    (stopDriver closedCtrl none stuckWorld).1 = -1 := by
  decide

/-! ## The trace only grows -/

theorem emit_grows (l : List Event) (e : Event) (w : World) (h : l <+: w.trace) :
    l <+: (emit e w).trace :=
  h.trans (List.prefix_append _ _)

@[simp] theorem sys_unlink_trace (p : CStr) (w : World) :
    (sys_unlink p w).trace = w.trace ++ [Event.unlink p] := by
  unfold sys_unlink
  simp only []
  split <;> rfl

@[simp] theorem sys_access_trace (p : CStr) (w : World) :
    (sys_access p w).2.trace = w.trace ++ [Event.access p (w.accessRet 0).1] := rfl

@[simp] theorem sys_chown_trace (p : CStr) (u g : Nat) (w : World) :
    (sys_chown p u g w).2.trace = w.trace ++ [Event.chown p u g (w.chownRet 0)] := rfl

@[simp] theorem property_set_trace (k v : CStr) (w : World) :
    (property_set k v w).trace = w.trace ++ [Event.propertySet k v] := rfl

theorem sys_open_grows (l : List Event) (p : CStr) (m : OpenMode) (w : World)
    (h : l <+: w.trace) : l <+: (sys_open p m w).2.trace := by
  rw [sys_open_trace]
  exact h.trans (List.prefix_append _ _)

theorem sys_write_grows (l : List Event) (p : CStr) (d : List Char) (w : World)
    (h : l <+: w.trace) : l <+: (sys_write p d w).2.trace := by
  rw [sys_write_trace]
  exact h.trans (List.prefix_append _ _)

theorem sys_close_grows (l : List Event) (p : CStr) (w : World) (h : l <+: w.trace) :
    l <+: (sys_close p w).trace :=
  h.trans (List.prefix_append _ _)

theorem sys_unlink_grows (l : List Event) (p : CStr) (w : World) (h : l <+: w.trace) :
    l <+: (sys_unlink p w).trace := by
  rw [sys_unlink_trace]
  exact h.trans (List.prefix_append _ _)

theorem sys_access_grows (l : List Event) (p : CStr) (w : World) (h : l <+: w.trace) :
    l <+: (sys_access p w).2.trace :=
  h.trans (List.prefix_append _ _)

theorem sys_chown_grows (l : List Event) (p : CStr) (u g : Nat) (w : World)
    (h : l <+: w.trace) : l <+: (sys_chown p u g w).2.trace :=
  h.trans (List.prefix_append _ _)

theorem sys_usleep_grows (l : List Event) (n : Nat) (w : World) (h : l <+: w.trace) :
    l <+: (sys_usleep n w).trace :=
  h.trans (List.prefix_append _ _)

theorem sys_sleep_grows (l : List Event) (n : Nat) (w : World) (h : l <+: w.trace) :
    l <+: (sys_sleep n w).trace :=
  h.trans (List.prefix_append _ _)

theorem sched_yield_grows (l : List Event) (w : World) (h : l <+: w.trace) :
    l <+: (sched_yield w).trace :=
  h.trans (List.prefix_append _ _)

theorem property_get_grows (l : List Event) (n : CStr) (w : World) (h : l <+: w.trace) :
    l <+: (property_get n w).2.trace :=
  h.trans (List.prefix_append _ _)

theorem property_set_grows (l : List Event) (k v : CStr) (w : World) (h : l <+: w.trace) :
    l <+: (property_set k v w).trace :=
  h.trans (List.prefix_append _ _)

theorem delete_module_grows (l : List Event) (m : CStr) (w : World) (h : l <+: w.trace) :
    l <+: (delete_module m w).2.trace :=
  h.trans (List.prefix_append _ _)

theorem next_look_grows (l : List Event) (w : World) (h : l <+: w.trace) :
    l <+: (next_look w).trace := h

theorem write_int_grows (l : List Event) (p : CStr) (v : Int) (w : World)
    (h : l <+: w.trace) : l <+: (write_int p v w).2.trace := by
  unfold write_int
  simp only []
  split
  · exact sys_close_grows _ _ _ (sys_write_grows _ _ _ _ (sys_open_grows _ _ _ _ h))
  · exact sys_open_grows _ _ _ _ h

theorem read_template_grows (l : List Event) (off : Nat) (w : World) (h : l <+: w.trace) :
    l <+: (read_template off w).2.trace := by
  unfold read_template
  split <;> exact h.trans (List.prefix_append _ _)

theorem copy_loop_grows (l : List Event) :
    ∀ (fuel off : Nat) (w : World) (r : Bool × World), l <+: w.trace →
      copy_loop fuel off w = some r → l <+: r.2.trace := by
  intro fuel
  induction fuel with
  | zero =>
    intro off w r _ hr
    simp [copy_loop] at hr
  | succ fuel ih =>
    intro off w r h hr
    unfold copy_loop at hr
    simp only [] at hr
    split at hr
    · cases hr
      exact read_template_grows _ _ _ h
    · split at hr
      · cases hr
        exact read_template_grows _ _ _ h
      · exact ih _ _ r (sys_write_grows _ _ _ _ (read_template_grows _ _ _ h)) hr

theorem ensure_config_file_exists_grows (l : List Event) (w : World) (h : l <+: w.trace) :
    l <+: (ensure_config_file_exists w).2.trace := by
  have ha := sys_access_grows l HOSTAPD_CONFIG_FILE w h
  have hs := sys_open_grows l HOSTAPD_CONFIG_TEMPLATE OpenMode.rdonly _ ha
  have hd := sys_open_grows l HOSTAPD_CONFIG_FILE OpenMode.creatWronly _ hs
  unfold ensure_config_file_exists
  simp only []
  split
  · exact ha
  · split
    · exact ha
    · split
      · exact hs
      · split
        · exact sys_close_grows _ _ _ hd
        · split
          · exact hd
          · rename_i w1 hc
            exact sys_unlink_grows _ _ _ (sys_close_grows _ _ _ (sys_close_grows _ _ _
              (copy_loop_grows l _ _ _ _ hd hc)))
          · rename_i w1 hc
            have h2 := sys_chown_grows l HOSTAPD_CONFIG_FILE AID_SYSTEM AID_WIFI _
              (sys_close_grows _ HOSTAPD_CONFIG_TEMPLATE _ (sys_close_grows _ HOSTAPD_CONFIG_FILE _
                (copy_loop_grows l _ _ _ _ hd hc)))
            split
            · exact sys_unlink_grows _ _ _ h2
            · exact h2

theorem insmod_grows (l : List Event) (f a : CStr) (w : World) (h : l <+: w.trace) :
    l <+: (insmod f a w).2.trace := by
  unfold insmod
  simp only []
  split
  · exact h.trans (List.prefix_append _ _)
  · exact (h.trans (List.prefix_append _ _)).trans (List.prefix_append _ _)

theorem rmmod_grows (l : List Event) (m : CStr) (w : World) (h : l <+: w.trace) :
    l <+: (rmmod m w).2.trace := by
  obtain ⟨evs, hevs, _⟩ := rmmod_loop_events m 10 (-1) w
  have hrm : rmmod m w = rmmod_loop m 10 (-1) w := rfl
  rw [hrm, hevs]
  exact h.trans (List.prefix_append _ _)

theorem startDriver_grows (l : List Event) (c : SoftapController) (i : Option CStr) (w : World)
    (h : l <+: w.trace) : l <+: (startDriver c i w).2.trace := by
  unfold startDriver
  simp only []
  split
  · exact h
  · apply write_int_grows
    have hp := write_int_grows l POLLING_PATH 1 w h
    split
    · exact hp
    · have h1 := insmod_grows l WIFI_MODULE_EXT_PATH [] _ hp
      split
      · exact h1
      · have h2 := insmod_grows l WIFI_MODULE_PATH "con_mode=1".toList _ h1
        split
        · exact h2
        · exact ensure_config_file_exists_grows _ _ (sys_usleep_grows _ _ _ h2)

theorem stopDriver_grows (l : List Event) (c : SoftapController) (i : Option CStr) (w : World)
    (h : l <+: w.trace) : l <+: (stopDriver c i w).2.trace := by
  unfold stopDriver
  simp only []
  split
  · exact h
  · split
    · exact rmmod_grows _ _ _ h
    · exact rmmod_grows _ _ _ (rmmod_grows _ _ _ h)

theorem start_poll_grows (l : List Event) (b : Build) (serial : Nat) :
    ∀ (count : Nat) (pi : Bool) (w : World), l <+: w.trace →
      l <+: (start_poll b count pi serial w).2.trace := by
  intro count
  induction count with
  | zero =>
    intro pi w h
    exact h
  | succ count ih =>
    intro pi w h
    unfold start_poll
    simp only []
    have h1 : l <+: (if pi = true then next_look w
        else emit (Event.propertyFind HOSTAPD_PROP_NAME (w.sysProp 0).found) (next_look w)).trace := by
      split
      · exact h
      · exact emit_grows _ _ _ h
    split
    · split
      · split
        · exact emit_grows _ _ _ h1
        · split
          · exact emit_grows _ _ _ h1
          · exact ih _ _ (sys_usleep_grows _ _ _ (emit_grows _ _ _ h1))
      · exact ih _ _ (sys_usleep_grows _ _ _ h1)
    · exact ih _ _ (sys_usleep_grows _ _ _ h)

theorem wifi_start_hostapd_grows (l : List Event) (b : Build) (w : World) (h : l <+: w.trace) :
    l <+: (wifi_start_hostapd b w).2.trace := by
  unfold wifi_start_hostapd
  simp only []
  have hg := property_get_grows l HOSTAPD_PROP_NAME w h
  split
  · exact hg
  · apply start_poll_grows
    apply sched_yield_grows
    apply property_set_grows
    split
    · exact emit_grows _ _ _ (emit_grows _ _ _ hg)
    · exact emit_grows _ _ _ hg

theorem stop_poll_grows (l : List Event) :
    ∀ (count : Nat) (w : World), l <+: w.trace → l <+: (stop_poll count w).2.trace := by
  intro count
  induction count with
  | zero =>
    intro w h
    exact h
  | succ count ih =>
    intro w h
    unfold stop_poll
    simp only []
    split
    · exact property_get_grows _ _ _ h
    · exact ih _ (sys_usleep_grows _ _ _ (property_get_grows _ _ _ h))

theorem wifi_stop_hostapd_grows (l : List Event) (w : World) (h : l <+: w.trace) :
    l <+: (wifi_stop_hostapd w).2.trace := by
  unfold wifi_stop_hostapd
  simp only []
  split
  · exact property_get_grows _ _ _ h
  · exact stop_poll_grows _ _ _ (sched_yield_grows _ _
      (property_set_grows _ _ _ _ (property_get_grows _ _ _ h)))

theorem ready_poll_grows (l : List Event) (ifname : CStr) :
    ∀ (cnt : Nat) (w : World), l <+: w.trace → l <+: (ready_poll ifname cnt w).trace := by
  intro cnt
  induction cnt with
  | zero =>
    intro w h
    exact sys_access_grows _ _ _ h
  | succ cnt ih =>
    intro w h
    unfold ready_poll
    simp only []
    split
    · exact ih _ (sys_usleep_grows _ _ _ (sys_access_grows _ _ _ h))
    · exact sys_access_grows _ _ _ h

/-! ## The controller -/

/-- A successful `wifi_connect_to_hostapd` starts with a status query that reads
"running". -/
theorem wifi_connect_to_hostapd_seen (w : World) (h : ¬ (wifi_connect_to_hostapd w).1 < 0) :
    (w.trace ++ [runningSeen]) <+: (wifi_connect_to_hostapd w).2.trace := by
  unfold wifi_connect_to_hostapd at h ⊢
  simp only [] at h ⊢
  split
  · rename_i hc
    rw [if_pos hc] at h
    exact absurd (by norm_num) h
  · rename_i hc
    have hv : w.propertyGetRet 0 = running := by
      by_contra hne
      exact hc (Or.inr hne)
    apply sys_access_grows
    apply ready_poll_grows
    apply sched_yield_grows
    show (w.trace ++ [runningSeen]) <+: w.trace ++ [Event.propertyGet HOSTAPD_PROP_NAME (w.propertyGetRet 0)]
    rw [hv]
    exact List.prefix_refl _

theorem wifi_connect_to_hostapd_grows (l : List Event) (w : World) (h : l <+: w.trace) :
    l <+: (wifi_connect_to_hostapd w).2.trace := by
  unfold wifi_connect_to_hostapd
  simp only []
  split
  · exact property_get_grows _ _ _ h
  · apply sys_access_grows
    apply ready_poll_grows
    apply sched_yield_grows
    exact property_get_grows _ HOSTAPD_PROP_NAME _ h

/-- The world in which `startSoftap` calls `wifi_connect_to_hostapd`. -/
theorem startSoftap_cases (b : Build) (c : SoftapController) (w : World) :
    ((startSoftap b c w).2.1 = c ∧ w.trace <+: (startSoftap b c w).2.2.trace) ∨
    ((startSoftap b c w).2.1 = { c with mPid := 1 } ∧ c.mPid = 0 ∧ 0 ≤ c.mSock ∧
      (startSoftap b c w).1 = 0 ∧
      ∃ pre, (w.trace ++ pre ++ [runningSeen]) <+: (startSoftap b c w).2.2.trace) := by
  unfold startSoftap
  simp only []
  split
  · exact Or.inl ⟨rfl, List.prefix_refl _⟩
  · rename_i hpid
    split
    · exact Or.inl ⟨rfl, List.prefix_refl _⟩
    · rename_i hsock
      rw [if_neg (by decide : ¬ (1 : Int) = 0)]
      have h1 : w.trace <+: (sys_sleep 1 (emit (Event.ifcUp "softap.0".toList)
          (emit Event.ifcInit w))).trace :=
        sys_sleep_grows _ _ _ (emit_grows _ _ _ (emit_grows _ _ _ (List.prefix_refl _)))
      have h2 := wifi_start_hostapd_grows _ b _ h1
      have h3 := sys_usleep_grows _ 100000 _ (sched_yield_grows _ _ h2)
      split
      · exact Or.inl ⟨rfl, stopDriver_grows _ _ _ _ h2⟩
      · split
        · exact Or.inl ⟨rfl, wifi_connect_to_hostapd_grows _ _ h3⟩
        · rename_i hk
          split
          · rename_i hl
            simp [wifi_load_profile] at hl
          · split
            · rename_i hl
              simp [wifi_load_profile] at hl
            · refine Or.inr ⟨rfl, by simpa using hpid, by omega, rfl, ?_⟩
              obtain ⟨pre, hpre⟩ := h3
              refine ⟨pre, ?_⟩
              apply sys_usleep_grows
              rw [hpre]
              exact wifi_connect_to_hostapd_seen _ hk

theorem stopSoftap_cases (b : Build) (c : SoftapController) (w : World) :
    ((stopSoftap b c w).2.1 = c ∨ (stopSoftap b c w).2.1 = { c with mPid := 0 }) ∧
    w.trace <+: (stopSoftap b c w).2.2.trace := by
  unfold stopSoftap
  simp only []
  split
  · exact ⟨Or.inl rfl, List.prefix_refl _⟩
  · split
    · exact ⟨Or.inl rfl, List.prefix_refl _⟩
    · exact ⟨Or.inr rfl, sys_usleep_grows _ _ _
        (wifi_stop_hostapd_grows _ _ (List.prefix_refl _))⟩

theorem setSoftap_grows (l : List Event) (b : Build) (c : SoftapController)
    (argv : List CStr) (w : World) (h : l <+: w.trace) :
    l <+: (setSoftap b c argv w).2.trace := by
  unfold setSoftap
  simp only []
  split
  · exact h
  · split
    · exact h
    · split
      · exact sys_open_grows _ _ _ _ h
      · have h1 : l <+: (softap_lines argv
            ((sys_open HOSTAPD_CONFIG_FILE OpenMode.creatWronlyTrunc w).2,
             (sys_open HOSTAPD_CONFIG_FILE OpenMode.creatWronlyTrunc w).2.stack)).1.trace :=
          softap_lines_grows _ _ _ (sys_open_grows _ _ _ _ h)
        have h2 : l <+: (isSoftapStarted (sys_close HOSTAPD_CONFIG_FILE
            { (softap_lines argv
                ((sys_open HOSTAPD_CONFIG_FILE OpenMode.creatWronlyTrunc w).2,
                 (sys_open HOSTAPD_CONFIG_FILE OpenMode.creatWronlyTrunc w).2.stack)).1 with
              mProfileValid := 1 })).2.trace :=
          property_get_grows _ HOSTAPD_PROP_NAME _ (sys_close_grows _ HOSTAPD_CONFIG_FILE _ h1)
        split
        · exact h2
        · split
          · exact h2
          · exact sys_usleep_grows _ _ _ h2

theorem step_sound (b : Build) (t0 : List Event) (op : Op) (s : SoftapController × World)
    (h : Sound t0 s) : Sound t0 (step b op s).2 := by
  obtain ⟨hpre, hpid⟩ := h
  cases op with
  | startDriver i =>
    refine ⟨startDriver_grows _ _ _ _ hpre, fun hp => ?_⟩
    obtain ⟨hs, pre, hseen⟩ := hpid hp
    exact ⟨hs, pre, startDriver_grows _ _ _ _ hseen⟩
  | stopDriver i =>
    refine ⟨stopDriver_grows _ _ _ _ hpre, fun hp => ?_⟩
    obtain ⟨hs, pre, hseen⟩ := hpid hp
    exact ⟨hs, pre, stopDriver_grows _ _ _ _ hseen⟩
  | setSoftap argv =>
    refine ⟨setSoftap_grows _ _ _ _ _ hpre, fun hp => ?_⟩
    obtain ⟨hs, pre, hseen⟩ := hpid hp
    exact ⟨hs, pre, setSoftap_grows _ _ _ _ _ hseen⟩
  | startSoftap =>
    show Sound t0 (startSoftap b s.1 s.2).2
    rcases startSoftap_cases b s.1 s.2 with ⟨hc, hg⟩ | ⟨hc, _, hsock, _, pre, hseen⟩
    · refine ⟨hpre.trans hg, fun hp => ?_⟩
      rw [hc] at hp
      obtain ⟨hs, pre, hseen⟩ := hpid hp
      exact ⟨by rw [hc]; exact hs, pre, hseen.trans hg⟩
    · have hg : s.2.trace <+: (startSoftap b s.1 s.2).2.2.trace :=
        (List.prefix_append _ _).trans ((List.prefix_append _ _).trans hseen)
      refine ⟨hpre.trans hg, fun _ => ⟨by rw [hc]; exact hsock, ?_⟩⟩
      obtain ⟨q, hq⟩ := hpre
      refine ⟨q ++ pre, ?_⟩
      rw [← List.append_assoc, hq]
      exact hseen
  | stopSoftap =>
    show Sound t0 (stopSoftap b s.1 s.2).2
    obtain ⟨hc, hg⟩ := stopSoftap_cases b s.1 s.2
    refine ⟨hpre.trans hg, fun hp => ?_⟩
    rcases hc with hc | hc
    · rw [hc] at hp
      obtain ⟨hs, pre, hseen⟩ := hpid hp
      exact ⟨by rw [hc]; exact hs, pre, hseen.trans hg⟩
    · rw [hc] at hp
      exact absurd rfl hp

theorem run_sound (b : Build) (t0 : List Event) :
    ∀ (ops : List Op) (s : SoftapController × World), Sound t0 s → Sound t0 (run b ops s).2 := by
  intro ops
  induction ops with
  | nil =>
    intro s h
    exact h
  | cons op rest ih =>
    intro s h
    exact ih _ (step_sound b t0 op s h)

theorem new_sound (w0 : World) : Sound w0.trace (SoftapController.new w0) :=
  ⟨List.prefix_append _ _, fun h => absurd rfl h⟩

theorem stateAfter_sound (b : Build) (w0 : World) (ops : List Op) :
    Sound w0.trace (stateAfter b w0 ops) :=
  run_sound b w0.trace ops _ (new_sound w0)

/-- C6: in every state reached from construction by a sequence of `startDriver`,
`stopDriver`, `startSoftap`, `stopSoftap` and `setSoftap` calls in which `mPid` is
nonzero, `stopSoftap` leaves `mPid` equal to 0 and returns what
`wifi_stop_hostapd` returns, whatever that is. -/
theorem stopSoftap_clears (b : Build) (w0 : World) (ops : List Op)
    (h : (stateAfter b w0 ops).1.mPid ≠ 0) :
    (stopSoftap b (stateAfter b w0 ops).1 (stateAfter b w0 ops).2).2.1.mPid = 0 ∧
    (stopSoftap b (stateAfter b w0 ops).1 (stateAfter b w0 ops).2).1
      = (wifi_stop_hostapd (stateAfter b w0 ops).2).1 := by
  obtain ⟨hs, _⟩ := (stateAfter_sound b w0 ops).2 h
  unfold stopSoftap
  rw [if_neg h, if_neg (not_lt.mpr hs)]
  exact ⟨rfl, rfl⟩

theorem stopSoftap_clears_witness :
    (stateAfter someBuild calmWorld [Op.startSoftap]).1.mPid ≠ 0 ∧
    (stopSoftap someBuild (stateAfter someBuild calmWorld [Op.startSoftap]).1
      (stateAfter someBuild calmWorld [Op.startSoftap]).2).2.1.mPid = 0 :=
  ⟨by decide, (stopSoftap_clears someBuild calmWorld [Op.startSoftap] (by decide)).1⟩

/-- C7 (as amended): over every sequence of controller operations from a freshly
constructed controller, whenever `mPid` is nonzero the actions performed since
construction contain an observation of the status property equal to "running".
A successful driver load is not implied. -/
theorem started_seen_running (b : Build) (w0 : World) (ops : List Op)
    (h : (stateAfter b w0 ops).1.mPid ≠ 0) :
    runningSeen ∈ eventsSince w0 (stateAfter b w0 ops).2 := by
  obtain ⟨_, pre, t, ht⟩ := (stateAfter_sound b w0 ops).2 h
  unfold eventsSince
  rw [← ht]
  simp

theorem started_seen_running_witness :
    (stateAfter someBuild calmWorld [Op.startSoftap]).1.mPid ≠ 0 ∧
    runningSeen ∈ eventsSince calmWorld (stateAfter someBuild calmWorld [Op.startSoftap]).2 :=
  ⟨by decide, started_seen_running someBuild calmWorld [Op.startSoftap] (by decide)⟩

/-- C7 as stated fails: on a fresh controller in `calmWorld`, where the status
property already reads "running", the single operation `startSoftap` returns 0
and sets `mPid` to 1, and the history holds that operation only: no
`startDriver`, successful or not. -/
theorem started_without_driver_load :
    (stateAfter someBuild calmWorld [Op.startSoftap]).1.mPid = 1 ∧
    historyOf someBuild calmWorld [Op.startSoftap] = [(Op.startSoftap, 0)] := by
  decide

/-- C8: with `mPid` nonzero `startSoftap` returns 0 and leaves the controller and
the world, trace included, as they are (no action at all); with `mPid` zero
`stopSoftap` does the same. -/
theorem softap_idempotent (b : Build) (c : SoftapController) (w : World) :
    (c.mPid ≠ 0 → startSoftap b c w = (0, c, w) ∧
      eventsSince w (startSoftap b c w).2.2 = []) ∧
    (c.mPid = 0 → stopSoftap b c w = (0, c, w) ∧
      eventsSince w (stopSoftap b c w).2.2 = []) := by
  constructor
  · intro h
    have he : startSoftap b c w = (0, c, w) := by
      unfold startSoftap
      exact if_pos h
    exact ⟨he, by rw [he]; simp [eventsSince]⟩
  · intro h
    have he : stopSoftap b c w = (0, c, w) := by
      unfold stopSoftap
      exact if_pos h
    exact ⟨he, by rw [he]; simp [eventsSince]⟩

theorem softap_idempotent_witness :
    openCtrl.mPid = 0 ∧ stopSoftap someBuild openCtrl calmWorld = (0, openCtrl, calmWorld) ∧
    ({ openCtrl with mPid := 1 } : SoftapController).mPid ≠ 0 ∧
    startSoftap someBuild { openCtrl with mPid := 1 } calmWorld
      = (0, { openCtrl with mPid := 1 }, calmWorld) :=
  ⟨rfl, ((softap_idempotent someBuild openCtrl calmWorld).2 rfl).1, by decide,
    ((softap_idempotent someBuild { openCtrl with mPid := 1 } calmWorld).1 (by decide)).1⟩

/-! ## Copying the template -/

@[simp] theorem sys_write_template (p : CStr) (d : List Char) (w : World) :
    (sys_write p d w).2.template = w.template := by
  unfold sys_write
  simp only []
  split
  · rfl
  · split <;> rfl

@[simp] theorem read_template_template (off : Nat) (w : World) :
    (read_template off w).2.template = w.template := by
  unfold read_template
  split <;> rfl

theorem read_template_length (off : Nat) (w : World) (got : List Char)
    (h : (read_template off w).1 = some got) : got.length ≤ w.template.length - off := by
  unfold read_template at h
  split at h
  · cases h
  · simp only [Option.some.injEq] at h
    subst h
    simp only [List.length_take, List.length_drop]
    omega

/-- The copy loop ends within one round more than the bytes left to read. -/
theorem copy_loop_total :
    ∀ (fuel off : Nat) (w : World), w.template.length - off < fuel →
      ∃ r, copy_loop fuel off w = some r := by
  intro fuel
  induction fuel with
  | zero =>
    intro off w h
    exact absurd h (by omega)
  | succ fuel ih =>
    intro off w h
    unfold copy_loop
    simp only []
    split
    · exact ⟨_, rfl⟩
    · rename_i got hgot
      split
      · exact ⟨_, rfl⟩
      · apply ih
        have hl := read_template_length off w got hgot
        simp only [sys_write_template, read_template_template]
        omega

/-- C9 at the failing input: `hostapd.conf` is absent, the template has 15 bytes,
the one `write` of the copy fails; `ensure_config_file_exists` still returns 0,
leaves an empty `hostapd.conf` that differs from the template, and never
unlinks it. -/
theorem ensure_config_ignores_failed_write :
    fullDiskWorld.conf = none ∧
    fullDiskWorld.template = "ssid=AndroidAP\n".toList ∧
    (ensure_config_file_exists fullDiskWorld).1 = 0 ∧
    (ensure_config_file_exists fullDiskWorld).2.conf = some [] ∧
    Event.writeFile HOSTAPD_CONFIG_FILE "ssid=AndroidAP\n".toList (-1)
      ∈ (ensure_config_file_exists fullDiskWorld).2.trace ∧
    Event.unlink HOSTAPD_CONFIG_FILE ∉ (ensure_config_file_exists fullDiskWorld).2.trace := by
  decide

/-! ## The kill switch -/

@[simp] theorem sys_read_trace (p : CStr) (n : Nat) (w : World) :
    (sys_read p n w).2.trace = w.trace ++ [Event.readFile p n (sys_read p n w).1.1] := by
  unfold sys_read
  split <;> rfl

@[simp] theorem sys_read_openRet (p : CStr) (n : Nat) (w : World) :
    (sys_read p n w).2.openRet = w.openRet := by
  unfold sys_read
  split <;> rfl

@[simp] theorem sys_read_rfkill_state_path (p : CStr) (n : Nat) (w : World) :
    (sys_read p n w).2.rfkill_state_path = w.rfkill_state_path := by
  unfold sys_read
  split <;> rfl

@[simp] theorem sys_open_openRet (p : CStr) (m : OpenMode) (w : World) (n : Nat) :
    (sys_open p m w).2.openRet n = w.openRet (n + 1) := by
  unfold sys_open
  simp only []
  split
  · split <;> rfl
  · rfl

@[simp] theorem sys_open_rfkill_state_path (p : CStr) (m : OpenMode) (w : World) :
    (sys_open p m w).2.rfkill_state_path = w.rfkill_state_path := by
  unfold sys_open
  simp only []
  split
  · split <;> rfl
  · rfl

@[simp] theorem sys_close_openRet (p : CStr) (w : World) :
    (sys_close p w).openRet = w.openRet := rfl

@[simp] theorem sys_close_rfkill_state_path (p : CStr) (w : World) :
    (sys_close p w).rfkill_state_path = w.rfkill_state_path := rfl

@[simp] theorem sys_sleep_openRet (n : Nat) (w : World) :
    (sys_sleep n w).openRet = w.openRet := rfl

theorem ite_snd_same {α β : Type} (c : Prop) [Decidable c] (a b : α) (x : β) :
    (if c then (a, x) else (b, x)).2 = x := by
  split <;> rfl

/-- With the handle discovered and the attribute openable, `check_wifi_power` opens
the state attribute once, reads one byte and closes: it writes nothing. -/
theorem check_wifi_power_reads (w : World) (hid : w.rfkill_id ≠ -1)
    (hopen : 0 ≤ (w.openRet 0).1) :
    (∃ r, (check_wifi_power w).2.trace = w.trace ++
      [Event.openFile (w.rfkill_state_path.getD []) OpenMode.rdonly (w.openRet 0).1,
       Event.readFile (w.rfkill_state_path.getD []) 1 r,
       Event.closeFile (w.rfkill_state_path.getD [])]) ∧
    (check_wifi_power w).2.rfkill_state_path = w.rfkill_state_path ∧
    (∀ n, (check_wifi_power w).2.openRet n = w.openRet (n + 1)) := by
  unfold check_wifi_power
  simp only [hid, if_false, ne_eq, not_true_eq_false, sys_open_fst, not_lt.mpr hopen]
  simp only [ite_snd_same]
  exact ⟨⟨(sys_read (w.rfkill_state_path.getD []) 1
    (sys_open (w.rfkill_state_path.getD []) OpenMode.rdonly w).2).1.1, by simp⟩, by simp, by simp⟩

/-- C10: with the rfkill handle discovered and the state attribute openable, for
`S` passed as 1 or 0: when `check_wifi_power()` equals `S`, `set_wifi_power(S)`
issues no write and returns 0; when `check_wifi_power()` equals the opposite
state, the actions of `set_wifi_power(S)` are those of `check_wifi_power`
(an open, a one-byte read and a close, no write) followed by the open for
writing, a sleep of 3 seconds, one write of the single byte '1' for on or '0'
for off, and the close: exactly one write, preceded by the sleep. -/
theorem set_wifi_power_writes (on_ : Int) (w : World) (hon : on_ = 0 ∨ on_ = 1)
    (hid : w.rfkill_id ≠ -1) (hopen : ∀ n, 0 ≤ (w.openRet n).1) :
    ((check_wifi_power w).1 = on_ →
      (set_wifi_power on_ w).1 = 0 ∧
      writeCount (eventsSince w (set_wifi_power on_ w).2) = 0) ∧
    ((check_wifi_power w).1 = 1 - on_ →
      (∃ ret, eventsSince w (set_wifi_power on_ w).2 =
        eventsSince w (check_wifi_power w).2 ++
          [Event.openFile (w.rfkill_state_path.getD []) OpenMode.wronly (w.openRet 1).1,
           Event.sleep 3,
           Event.writeFile (w.rfkill_state_path.getD []) [if on_ = 1 then '1' else '0'] ret,
           Event.closeFile (w.rfkill_state_path.getD [])]) ∧
      writeCount (eventsSince w (check_wifi_power w).2) = 0 ∧
      writeCount (eventsSince w (set_wifi_power on_ w).2) = 1) := by
  obtain ⟨⟨r, htr⟩, hpath, hfeed⟩ := check_wifi_power_reads w hid (hopen 0)
  have hcheck := eventsSince_append w _ _ htr
  have hcw : writeCount (eventsSince w (check_wifi_power w).2) = 0 := by
    rw [hcheck]
    simp [writeCount, List.countP_cons]
  constructor
  · intro hc
    have hs : set_wifi_power on_ w = (0, (check_wifi_power w).2) := by
      unfold set_wifi_power
      simp only [hid, if_false, ne_eq, not_true_eq_false, hc, if_true]
    rw [hs]
    exact ⟨rfl, hcw⟩
  · intro hc
    have hne : (check_wifi_power w).1 ≠ on_ := by
      rcases hon with h | h <;> omega
    have hbyte : (if on_ ≠ 0 then '1' else '0') = (if on_ = 1 then '1' else '0') := by
      rcases hon with h | h <;> simp [h]
    have hwopen : ¬ (sys_open ((check_wifi_power w).2.rfkill_state_path.getD []) OpenMode.wronly
        (check_wifi_power w).2).1 < 0 := by
      rw [sys_open_fst, hfeed]
      exact not_lt.mpr (hopen 1)
    have htrace : ∃ ret, (set_wifi_power on_ w).2.trace = (check_wifi_power w).2.trace ++
        [Event.openFile (w.rfkill_state_path.getD []) OpenMode.wronly (w.openRet 1).1,
         Event.sleep 3,
         Event.writeFile (w.rfkill_state_path.getD []) [if on_ = 1 then '1' else '0'] ret,
         Event.closeFile (w.rfkill_state_path.getD [])] := by
      unfold set_wifi_power
      simp only [hid, if_false, ne_eq, not_true_eq_false, hne, hwopen, hbyte, ite_snd_same]
      exact ⟨(sys_write ((check_wifi_power w).2.rfkill_state_path.getD [])
        [if on_ = 1 then '1' else '0']
        (sys_sleep 3 (sys_open ((check_wifi_power w).2.rfkill_state_path.getD [])
          OpenMode.wronly (check_wifi_power w).2).2)).1, by simp [hpath, hfeed]⟩
    obtain ⟨ret, hret⟩ := htrace
    have hev : eventsSince w (set_wifi_power on_ w).2 =
        eventsSince w (check_wifi_power w).2 ++
          [Event.openFile (w.rfkill_state_path.getD []) OpenMode.wronly (w.openRet 1).1,
           Event.sleep 3,
           Event.writeFile (w.rfkill_state_path.getD []) [if on_ = 1 then '1' else '0'] ret,
           Event.closeFile (w.rfkill_state_path.getD [])] := by
      rw [hcheck]
      apply eventsSince_append
      rw [hret, htr, List.append_assoc]
    refine ⟨⟨ret, hev⟩, hcw, ?_⟩
    rw [hev, hcheck]
    simp [writeCount, List.countP_cons]

theorem set_wifi_power_writes_witness :
    calmWorld.rfkill_id ≠ -1 ∧ (check_wifi_power calmWorld).1 = 1 ∧
    (set_wifi_power 1 calmWorld).1 = 0 ∧
    writeCount (eventsSince calmWorld (set_wifi_power 1 calmWorld).2) = 0 ∧
    (check_wifi_power radioOffWorld).1 = 1 - 1 ∧
    writeCount (eventsSince radioOffWorld (set_wifi_power 1 radioOffWorld).2) = 1 :=
  have h1 := (set_wifi_power_writes 1 calmWorld (Or.inr rfl) (by decide)
    (fun _ => (by decide : (0 : Int) ≤ 4))).1 (by decide)
  have h2 := (set_wifi_power_writes 1 radioOffWorld (Or.inr rfl) (by decide)
    (fun _ => (by decide : (0 : Int) ≤ 4))).2 (by decide)
  ⟨by decide, by decide, h1.1, h1.2, by decide, h2.2.2⟩

/-! ## Lemmas on the parameter buffer -/

theorem toUnsigned_small (x : Int) (h0 : 0 ≤ x) (h : x < 2 ^ 32) : (toUnsigned x : Int) = x := by
  unfold toUnsigned
  rw [Int.emod_eq_of_lt h0 h]
  exact Int.toNat_of_nonneg h0

theorem toInt32_small (x : Int) (h0 : 0 ≤ x) (h : x < 2 ^ 31) : toInt32 x = x := by
  unfold toInt32
  rw [Int.emod_eq_of_lt (by omega) (by omega)]
  omega

theorem param_text_length (cmd arg : CStr) :
    (cmd ++ ['='] ++ arg ++ [',']).length = cmd.length + arg.length + 2 := by
  simp only [List.length_append, List.length_singleton]
  omega

/-- A negative `pos` comes back as it is and nothing is written. -/
theorem addParam_negative (N : Nat) (mBuf : List Char) (pos : Int) (cmd arg : CStr)
    (h : pos < 0) : addParam N mBuf pos cmd arg = (pos, mBuf) := by
  unfold addParam
  exact if_pos h

/-- When `pos + len(cmd) + len(arg) + 1` reaches the capacity, the result is -1 and
nothing is written. -/
theorem addParam_too_big (N : Nat) (mBuf : List Char) (pos : Int) (cmd arg : CStr)
    (h0 : 0 ≤ pos) (hw : pos + cmd.length + arg.length + 1 < 2 ^ 32)
    (h : (N : Int) ≤ pos + cmd.length + arg.length + 1) :
    addParam N mBuf pos cmd arg = (-1, mBuf) := by
  unfold addParam
  rw [if_neg (not_lt.mpr h0)]
  have hu := toUnsigned_small (pos + cmd.length + arg.length + 1) (by omega) hw
  rw [if_pos (by omega)]

/-- Below the capacity the text "cmd=arg," and a NUL are stored at offset `pos` and
the result is `pos + len(cmd) + len(arg) + 2`. -/
theorem addParam_fits (N : Nat) (mBuf : List Char) (pos : Int) (cmd arg : CStr)
    (h0 : 0 ≤ pos) (hN : N < 2 ^ 31) (h : pos + cmd.length + arg.length + 1 < N) :
    addParam N mBuf pos cmd arg
      = (pos + cmd.length + arg.length + 2,
         overwrite mBuf pos.toNat (cmd ++ ['='] ++ arg ++ [','] ++ [Char.ofNat 0])) := by
  unfold addParam
  rw [if_neg (not_lt.mpr h0)]
  have hu := toUnsigned_small (pos + cmd.length + arg.length + 1) (by omega) (by omega)
  rw [if_neg (by omega)]
  simp only [sprintf_at, param_text_length]
  rw [toInt32_small _ (by omega) (by push_cast; omega)]
  push_cast
  congr 1
  omega

/-- The byte right after a text stored at `off` is the one `overwrite` puts last. -/
theorem overwrite_last (old : List Char) (off : Nat) (s : List Char) (c : Char)
    (h : off ≤ old.length) : (overwrite old off (s ++ [c]))[off + s.length]? = some c := by
  unfold overwrite
  have h1 : (old.take off).length = off := by simp [h]
  rw [List.append_assoc, List.getElem?_append_right (by omega), h1,
    List.getElem?_append_left (by simp), List.getElem?_append_right (by omega)]
  simp

/-- Bytes behind a stored text keep their value. -/
theorem overwrite_behind (old : List Char) (off : Nat) (data : List Char) (i : Nat)
    (h : off ≤ old.length) (hi : off + data.length ≤ i) :
    (overwrite old off data)[i]? = old[i]? := by
  unfold overwrite
  have h1 : (old.take off).length = off := by simp [h]
  rw [List.getElem?_append_right (by simp; omega), List.getElem?_drop]
  congr 1
  simp only [List.length_append, h1]
  omega

/-- When the text and its NUL end below the capacity, no byte at or after index `N`
changes. -/
theorem addParam_inside (N : Nat) (mBuf : List Char) (pos : Int) (cmd arg : CStr)
    (h0 : 0 ≤ pos) (hN : N < 2 ^ 31) (h : pos + cmd.length + arg.length + 2 < N)
    (hmem : N ≤ mBuf.length) (i : Nat) (hi : N ≤ i) :
    (addParam N mBuf pos cmd arg).2[i]? = mBuf[i]? := by
  rw [addParam_fits N mBuf pos cmd arg h0 hN (by omega)]
  apply overwrite_behind
  · omega
  · simp only [List.length_append, List.length_singleton]
    omega

/-- The off-by-one of the capacity test: when "cmd=arg," ends exactly at the last
byte of the array, the test lets the call through and `sprintf` stores its
NUL at index `N`, the first byte after the array. -/
theorem addParam_nul_past_end (N : Nat) (mBuf : List Char) (pos : Int) (cmd arg : CStr)
    (h0 : 0 ≤ pos) (hN : N < 2 ^ 31) (h : pos + cmd.length + arg.length + 2 = N)
    (hmem : N ≤ mBuf.length) :
    (addParam N mBuf pos cmd arg).1 = N ∧
    (addParam N mBuf pos cmd arg).2[N]? = some (Char.ofNat 0) := by
  rw [addParam_fits N mBuf pos cmd arg h0 hN (by omega)]
  refine ⟨h, ?_⟩
  have hl := param_text_length cmd arg
  have hidx : N = pos.toNat + (cmd ++ ['='] ++ arg ++ [',']).length := by omega
  have hgo := overwrite_last mBuf pos.toNat (cmd ++ ['='] ++ arg ++ [',']) (Char.ofNat 0)
    (by omega)
  rw [← hidx] at hgo
  exact hgo

/-- C11 at the failing input: capacity 4096, `pos` 0, `cmd` "ssid" and an `arg` of
4090 characters.  The test `0 + 4 + 4090 + 1 >= 4096` is false, so `addParam`
returns 4096, a non-negative result, and the byte at index 4096, the first
one after the array, which held 'n', now holds the NUL of `sprintf`. -/
theorem addParam_writes_past_buffer :
    (addParam 4096 bufferAndNext 0 "ssid".toList longArg).1 = 4096 ∧
    bufferAndNext[4096]? = some 'n' ∧
    (addParam 4096 bufferAndNext 0 "ssid".toList longArg).2[4096]? = some (Char.ofNat 0) :=
  have hlen : longArg.length = 4090 := by
    unfold longArg
    exact List.length_replicate _ _
  have hbuf : bufferAndNext.length = 4100 := by
    unfold bufferAndNext
    rw [List.length_append, List.length_replicate]
    rfl
  have hnext : bufferAndNext[4096]? = some 'n' := by
    unfold bufferAndNext
    rw [List.getElem?_append_right (by rw [List.length_replicate]), List.length_replicate]
    rfl
  have h := addParam_nul_past_end 4096 bufferAndNext 0 "ssid".toList longArg (le_refl 0)
    (by norm_num) (by rw [hlen]; rfl) (by rw [hbuf]; norm_num)
  ⟨h.1, hnext, h.2⟩

end SoftapQC
